import Mathlib

set_option maxHeartbeats 1000000

/- Verification development for the autonomous exploration engine of an
   indoor drone ground station (server/occupancy-grid.js and the
   exploration-engine module).  JavaScript numbers are modelled as exact
   rationals, wall-clock timestamps as natural numbers of milliseconds,
   and each event handler as an atomic state transformer of the
   single-threaded event loop. -/

namespace DroneGS

/-- Replace the element at position i of a list; out-of-range writes are
dropped (all writes in the source are guarded by isInMap, so they are
in bounds of the typed array). -/
def listSet : List ℤ → ℕ → ℤ → List ℤ
  | [], _, _ => []
  | _ :: xs, 0, v => v :: xs
  | x :: xs, n + 1, v => x :: listSet xs n v

/-! ## Exact comparisons of JavaScript float expressions

The source compares Math.hypot(dx, dy) (the nonnegative square root of
dx * dx + dy * dy) against constant thresholds.  Over the rational model we
encode those comparisons exactly through the squared forms; each helper is
the precise truth value of the source's float comparison. -/

/-- Exact encoding of Math.hypot(dx, dy) < c : the square root of a
nonnegative number is < c iff c is positive and the radicand is < c^2. -/
def hypotLt (dx dy c : ℚ) : Bool :=
  decide (0 ≤ c ∧ dx * dx + dy * dy < c * c)

/-- Exact encoding of Math.hypot(dx, dy) <= c. -/
def hypotLe (dx dy c : ℚ) : Bool :=
  decide (0 ≤ c ∧ dx * dx + dy * dy ≤ c * c)

/-- Exact encoding of Math.hypot(dx, dy) > c. -/
def hypotGt (dx dy c : ℚ) : Bool :=
  decide (c < 0 ∨ c * c < dx * dx + dy * dy)

/-! ## OccupancyGrid (server/occupancy-grid.js) -/

/-- The OccupancyGrid class state.  data and inflatedData are the raw and
inflated cell arrays (0 = unknown, 1 = free, -1 = occupied), length
width * height, row-major (index gy * width + gx).  The three stats fields
are the running counters maintained by updateStats. -/
structure OccupancyGrid where
  width : ℕ
  height : ℕ
  resolution : ℚ
  originX : ℚ
  originY : ℚ
  data : List ℤ
  inflatedData : List ℤ
  robotRadius : ℚ
  inflationRadius : ℤ
  statsUnknown : ℤ
  statsFree : ℤ
  statsOccupied : ℤ
  deriving Repr, DecidableEq

namespace OccupancyGrid

/-- The constructor: origin = (-width * resolution / 2, -height * resolution / 2),
both arrays filled with 0, robotRadius 0.2, inflationRadius the ceiling of
robotRadius / resolution, stats (width * height, 0, 0). -/
def mk2 (width height : ℕ) (resolution : ℚ) : OccupancyGrid :=
  { width := width
    height := height
    resolution := resolution
    originX := -(width * resolution) / 2
    originY := -(height * resolution) / 2
    data := List.replicate (width * height) 0
    inflatedData := List.replicate (width * height) 0
    robotRadius := 0.2
    inflationRadius := ⌈(0.2 : ℚ) / resolution⌉
    statsUnknown := width * height
    statsFree := 0
    statsOccupied := 0 }

/-- worldToGrid(x, y): floor((x - origin.x) / resolution) and likewise for y. -/
def worldToGrid (g : OccupancyGrid) (x y : ℚ) : ℤ × ℤ :=
  (⌊(x - g.originX) / g.resolution⌋, ⌊(y - g.originY) / g.resolution⌋)

/-- gridToWorld(gx, gy): cell-center world coordinates. -/
def gridToWorld (g : OccupancyGrid) (gx gy : ℤ) : ℚ × ℚ :=
  ((gx + 0.5) * g.resolution + g.originX, (gy + 0.5) * g.resolution + g.originY)

/-- isInMap(gx, gy). -/
def isInMap (g : OccupancyGrid) (gx gy : ℤ) : Bool :=
  decide (0 ≤ gx ∧ gx < g.width ∧ 0 ≤ gy ∧ gy < g.height)

/-- getOccupancy(gx, gy): -1 outside the map, else the raw cell. -/
def getOccupancy (g : OccupancyGrid) (gx gy : ℤ) : ℤ :=
  if g.isInMap gx gy then g.data.getD (gy * g.width + gx).toNat 0 else -1

/-- getInflatedOccupancy(gx, gy). -/
def getInflatedOccupancy (g : OccupancyGrid) (gx gy : ℤ) : ℤ :=
  if g.isInMap gx gy then g.inflatedData.getD (gy * g.width + gx).toNat 0 else -1

/-- updateStats(oldValue, newValue): decrement the counter of the old value
and increment the counter of the new one (only for the values 0, 1, -1,
exactly as the if / else-if chains in the source). -/
def updateStats (g : OccupancyGrid) (oldValue newValue : ℤ) : OccupancyGrid :=
  let g1 :=
    if oldValue = 0 then { g with statsUnknown := g.statsUnknown - 1 }
    else if oldValue = 1 then { g with statsFree := g.statsFree - 1 }
    else if oldValue = -1 then { g with statsOccupied := g.statsOccupied - 1 }
    else g
  if newValue = 0 then { g1 with statsUnknown := g1.statsUnknown + 1 }
  else if newValue = 1 then { g1 with statsFree := g1.statsFree + 1 }
  else if newValue = -1 then { g1 with statsOccupied := g1.statsOccupied + 1 }
  else g1

/-- setOccupancy(gx, gy, value): in-map guard, then update stats and write
the cell only when the value changes. -/
def setOccupancy (g : OccupancyGrid) (gx gy : ℤ) (value : ℤ) : OccupancyGrid :=
  if g.isInMap gx gy then
    let index := (gy * g.width + gx).toNat
    let oldValue := g.data.getD index 0
    if oldValue ≠ value then
      let g1 := g.updateStats oldValue value
      { g1 with data := listSet g1.data index value }
    else g
  else g

/-- One iteration step of the raytrace loop: mark the current cell free if it
is in the map and not occupied; stop at the end point; otherwise advance by
the Bresenham error rule.  fuel counts the remaining iterations allowed by
the steps < maxSteps bound of the source. -/
def raytraceAux (x1 y1 : ℤ) (dx dy sx sy : ℤ) :
    ℕ → OccupancyGrid → ℤ → ℤ → ℤ → OccupancyGrid
  | 0, g, _, _, _ => g
  | fuel + 1, g, x0, y0, err =>
    let g1 := if g.isInMap x0 y0 ∧ g.getOccupancy x0 y0 ≠ -1 then
        g.setOccupancy x0 y0 1 else g
    if x0 = x1 ∧ y0 = y1 then g1
    else
      let e2 := 2 * err
      let (err1, x0') := if e2 > -dy then (err - dy, x0 + sx) else (err, x0)
      let (err2, y0') := if e2 < dx then (err1 + dx, y0 + sy) else (err1, y0)
      raytraceAux x1 y1 dx dy sx sy fuel g1 x0' y0' err2

/-- raytrace(x0, y0, x1, y1): Bresenham walk marking visited non-occupied
cells free, capped at max(width, height) steps. -/
def raytrace (g : OccupancyGrid) (x0 y0 x1 y1 : ℤ) : OccupancyGrid :=
  let dx := |x1 - x0|
  let dy := |y1 - y0|
  let sx : ℤ := if x0 < x1 then 1 else -1
  let sy : ℤ := if y0 < y1 then 1 else -1
  raytraceAux x1 y1 dx dy sx sy (max g.width g.height) g x0 y0 (dx - dy)

/-- getExploredArea(): (free + occupied) * resolution^2. -/
def getExploredArea (g : OccupancyGrid) : ℚ :=
  (g.statsFree + g.statsOccupied) * (g.resolution * g.resolution)

/-- reset(): zero both arrays, reset the stats triple. -/
def reset (g : OccupancyGrid) : OccupancyGrid :=
  { g with
    data := List.replicate (g.width * g.height) 0
    inflatedData := List.replicate (g.width * g.height) 0
    statsUnknown := g.width * g.height
    statsFree := 0
    statsOccupied := 0 }

/-- inflateCell(cx, cy): set every in-map inflated cell of the square
neighbourhood whose Euclidean distance to (cx, cy) is at most
inflationRadius to -1.  The source tests sqrt(dx*dx + dy*dy) <= radius,
which for integers in the loop range (radius >= 0 whenever the loop body
runs) is exactly dx*dx + dy*dy <= radius*radius; the guarded write
(only when the cell is not already -1) is the same as writing -1. -/
def inflateCellStep (radius cx cy dy : ℤ) (gacc2 : OccupancyGrid) (dxi : ℕ) :
    OccupancyGrid :=
  let dx : ℤ := (dxi : ℤ) - radius
  let gx := cx + dx
  let gy := cy + dy
  if gacc2.isInMap gx gy then
    if dx * dx + dy * dy ≤ radius * radius then
      { gacc2 with
        inflatedData := listSet gacc2.inflatedData (gy * gacc2.width + gx).toNat (-1) }
    else gacc2
  else gacc2

def inflateCellRow (radius cx cy : ℤ) (gacc : OccupancyGrid) (dyi : ℕ) : OccupancyGrid :=
  (List.range (2 * radius + 1).toNat).foldl
    (inflateCellStep radius cx cy ((dyi : ℤ) - radius)) gacc

/-- inflateCell(cx, cy) proper: the double loop over the square
neighbourhood of half-side inflationRadius, split into the two folds
above. -/
def inflateCell (g : OccupancyGrid) (cx cy : ℤ) : OccupancyGrid :=
  (List.range (2 * g.inflationRadius + 1).toNat).foldl
    (inflateCellRow g.inflationRadius cx cy) g

/-- inflateObstacles(): copy raw into inflated, then inflate around every
raw-occupied cell (row-major scan, gy outer, gx inner). -/
def inflateObstaclesStep (gy : ℤ) (gacc2 : OccupancyGrid) (gxi : ℕ) : OccupancyGrid :=
  if gacc2.data.getD (gy * gacc2.width + (gxi : ℤ)).toNat 0 = -1 then
    gacc2.inflateCell (gxi : ℤ) gy
  else gacc2

def inflateObstaclesRow (gacc : OccupancyGrid) (gyi : ℕ) : OccupancyGrid :=
  (List.range gacc.width).foldl (inflateObstaclesStep (gyi : ℤ)) gacc

def inflateObstacles (g : OccupancyGrid) : OccupancyGrid :=
  (List.range g.height).foldl inflateObstaclesRow { g with inflatedData := g.data }

end OccupancyGrid

/-! ## Claim C6: counter-sum invariant -/

/-- Number of cells of a list holding value v. -/
def cnt (v : ℤ) (l : List ℤ) : ℕ :=
  l.countP (fun x => x == v)

/-- One grid operation of the kind quantified over by claim C6. -/
inductive GridOp where
  | set (gx gy v : ℤ)
  | ray (x0 y0 x1 y1 : ℤ)
  | inflate
  | resetG
  deriving Repr, DecidableEq

/-- Interpretation of a grid operation. -/
def applyOp (g : OccupancyGrid) : GridOp → OccupancyGrid
  | GridOp.set gx gy v => g.setOccupancy gx gy v
  | GridOp.ray x0 y0 x1 y1 => g.raytrace x0 y0 x1 y1
  | GridOp.inflate => g.inflateObstacles
  | GridOp.resetG => g.reset

def applyOps (g : OccupancyGrid) (ops : List GridOp) : OccupancyGrid :=
  ops.foldl applyOp g

/-- A setOccupancy operation with value in the legal set; the other
operations are unconstrained. -/
def wfOp : GridOp → Prop
  | GridOp.set _ _ v => v = -1 ∨ v = 0 ∨ v = 1
  | _ => True

instance : DecidablePred wfOp := by
  intro op
  cases op <;> simp only [wfOp] <;> infer_instance

/-- The stats-are-counts invariant together with the auxiliary facts needed
to push it through every operation. -/
def statsGood (g : OccupancyGrid) : Prop :=
  g.statsUnknown = cnt 0 g.data ∧
  g.statsFree = cnt 1 g.data ∧
  g.statsOccupied = cnt (-1) g.data ∧
  (∀ v ∈ g.data, v = -1 ∨ v = 0 ∨ v = 1) ∧
  g.data.length = g.width * g.height

/-- Everything except the contents of the inflated array is unchanged
between two grids (the inflated array keeps its length). -/
def gridFrame (g g' : OccupancyGrid) : Prop :=
  g'.width = g.width ∧ g'.height = g.height ∧ g'.resolution = g.resolution ∧
  g'.data = g.data ∧ g'.inflationRadius = g.inflationRadius ∧
  g'.statsUnknown = g.statsUnknown ∧ g'.statsFree = g.statsFree ∧
  g'.statsOccupied = g.statsOccupied ∧
  g'.inflatedData.length = g.inflatedData.length


/-! ## Mission synthesis (exploration engine) -/

/-- A 3-component position vector with rational (exact JavaScript number)
coordinates. -/
structure Pos3 where
  x : ℚ
  y : ℚ
  z : ℚ
  deriving Repr, DecidableEq

/-- Floor of the square root of a nonnegative rational, computed exactly:
for q = a / b in lowest terms this is Nat.sqrt (a * b) / b. -/
def ratSqrtFloor (q : ℚ) : ℕ :=
  Nat.sqrt (q.num.toNat * q.den) / q.den

/-- The exact value of Math.floor(Math.hypot(dx, dy) / 2.0): the floor of
the square root of (dx * dx + dy * dy) / 4. -/
def floorHalfHypot (dx dy : ℚ) : ℕ :=
  ratSqrtFloor ((dx * dx + dy * dy) / 4)

/-- generateWaypoints(start, goal): numWaypoints = max(2, floor(distance / 2.0))
where distance = Math.hypot over xy; waypoint i (i = 1 .. numWaypoints) is the
linear interpolation of start and goal at parameter t = i / numWaypoints. -/
def generateWaypoints (start goal : Pos3) : List Pos3 :=
  (List.range (max 2 (floorHalfHypot (goal.x - start.x) (goal.y - start.y)))).map
    (fun (i : ℕ) =>
      { x := start.x + (goal.x - start.x) *
          (((i : ℚ) + 1) / (max 2 (floorHalfHypot (goal.x - start.x) (goal.y - start.y))))
        y := start.y + (goal.y - start.y) *
          (((i : ℚ) + 1) / (max 2 (floorHalfHypot (goal.x - start.x) (goal.y - start.y))))
        z := start.z + (goal.z - start.z) *
          (((i : ℚ) + 1) / (max 2 (floorHalfHypot (goal.x - start.x) (goal.y - start.y)))) })

/-- One task of a mission envelope: an autoPilot position with yaw and the
fixed camera parameters published by the engine. -/
structure MissionTask where
  position : Pos3
  yaw : ℚ
  cameraOn : Bool
  cameraMode : ℤ
  cameraInterval : ℤ
  deriving Repr, DecidableEq

structure Mission where
  id : String
  tasks : List MissionTask
  deriving Repr, DecidableEq

/-- publishExplorationMission(goal): mission id "exploration_" followed by
Date.now(), one task per generated waypoint, yaw 0, camera off.  (The MQTT
publish and the delayed START execution command are bus effects outside the
state model.) -/
def publishExplorationMission (currentPos goal : Pos3) (now : ℕ) : Mission :=
  { id := "exploration_" ++ toString now
    tasks := (generateWaypoints currentPos goal).map (fun wp =>
      { position := wp
        yaw := 0
        cameraOn := false
        cameraMode := 0
        cameraInterval := 0 }) }

/-! ## setScoringWeights (exploration engine) -/

/-- A JavaScript value passed as a weight: either a number or anything for
which typeof is not number. -/
inductive JSVal where
  | num (q : ℚ)
  | other
  deriving Repr, DecidableEq

structure ScoringWeights where
  infoGain : ℚ
  distance : ℚ
  consistency : ℚ
  density : ℚ
  history : ℚ
  deriving Repr, DecidableEq

/-- The argument object of setScoringWeights: a possibly-present value for
each of the five valid keys, plus arbitrary other keys (extras), which the
source never reads. -/
structure WeightsArg where
  infoGain : Option JSVal
  distance : Option JSVal
  consistency : Option JSVal
  density : Option JSVal
  history : Option JSVal
  extras : List (String × JSVal)
  deriving Repr, DecidableEq

/-- The source's validity test: typeof weights[key] === number and
0 <= value <= 1. -/
def validWeight : JSVal → Bool
  | JSVal.num q => decide (0 ≤ q ∧ q ≤ 1)
  | JSVal.other => false

/-- One iteration of the validKeys loop: skip an absent key, fail on an
invalid value (the early return), otherwise write the value. -/
def applyWeightKey (cur : ScoringWeights) (v : Option JSVal)
    (setter : ScoringWeights → ℚ → ScoringWeights) : Option ScoringWeights :=
  match v with
  | none => some cur
  | some (JSVal.num q) => if q < 0 ∨ 1 < q then none else some (setter cur q)
  | some JSVal.other => none

/-- setScoringWeights(weights): iterate the keys infoGain, distance,
consistency, density, history in order; an invalid value returns
success = false immediately, keeping every write already performed. -/
def setScoringWeights (sw : ScoringWeights) (w : WeightsArg) : Bool × ScoringWeights :=
  match applyWeightKey sw w.infoGain (fun s q => { s with infoGain := q }) with
  | none => (false, sw)
  | some s1 =>
    match applyWeightKey s1 w.distance (fun s q => { s with distance := q }) with
    | none => (false, s1)
    | some s2 =>
      match applyWeightKey s2 w.consistency (fun s q => { s with consistency := q }) with
      | none => (false, s2)
      | some s3 =>
        match applyWeightKey s3 w.density (fun s q => { s with density := q }) with
        | none => (false, s3)
        | some s4 =>
          match applyWeightKey s4 w.history (fun s q => { s with history := q }) with
          | none => (false, s4)
          | some s5 => (true, s5)

/-- A key that is present with an invalid value. -/
def presentInvalid (v : Option JSVal) : Prop :=
  ∃ j, v = some j ∧ validWeight j = false

instance (v : Option JSVal) : Decidable (presentInvalid v) := by
  unfold presentInvalid
  cases v with
  | none => exact isFalse (by simp)
  | some j =>
    by_cases h : validWeight j = false
    · exact isTrue ⟨j, rfl, h⟩
    · exact isFalse (by simp [h])

/-- Initial scoring weights of the engine's config. -/
def initialScoringWeights : ScoringWeights :=
  { infoGain := 0.5, distance := 0.3, consistency := 0.3, density := 0.2, history := 0.2 }

/-- Concrete argument for the C10 witness: a valid infoGain, an invalid
distance (a non-number), and an unknown extra key. -/
def wC10 : WeightsArg :=
  { infoGain := some (JSVal.num (1/4)), distance := some JSVal.other
    consistency := some (JSVal.num (1/2)), density := none, history := none
    extras := [("bogusKey", JSVal.num 2)] }

/-- The concrete grid used by the C5 witness: a 3 x 3 one-metre grid with a
single occupied cell at (1, 1). -/
def gC5 : OccupancyGrid :=
  { width := 3, height := 3, resolution := 1, originX := -3/2, originY := -3/2
    data := [0, 0, 0, 0, -1, 0, 0, 0, 0]
    inflatedData := [0, 0, 0, 0, 0, 0, 0, 0, 0]
    robotRadius := 0.2, inflationRadius := 1
    statsUnknown := 8, statsFree := 0, statsOccupied := 1 }


/-! ## Exploration engine (part_006): data model -/

/-- A 2-component point, used for frontier candidates, visited goals and
unreachable records. -/
structure Pos2 where
  x : ℚ
  y : ℚ
  deriving Repr, DecidableEq

/-- A frontier cluster centroid with its member count. -/
structure Frontier where
  x : ℚ
  y : ℚ
  size : ℕ
  deriving Repr, DecidableEq

/-- The scorer's output goal: the frontier fields spread together with the
chosen z, the computed density and the pathClear marker. -/
structure Goal where
  x : ℚ
  y : ℚ
  z : ℚ
  size : ℕ
  density : ℚ
  pathClear : Bool
  deriving Repr, DecidableEq

/-- Scene bounds derived from the first large point cloud. -/
structure SceneBounds where
  minX : ℚ
  maxX : ℚ
  minY : ℚ
  maxY : ℚ
  minZ : ℚ
  maxZ : ℚ
  deriving Repr, DecidableEq

/-- The engine's configuration object. -/
structure EngineConfig where
  mapWidth : ℕ
  mapHeight : ℕ
  resolution : ℚ
  maxDistance : ℚ
  maxDuration : ℚ
  clusterRadius : ℚ
  minClusterSize : ℕ
  explorationHeight : ℚ
  updateInterval : ℚ
  boundaryMin : Option Pos3
  boundaryMax : Option Pos3
  enableZExploration : Bool
  minHeight : ℚ
  maxHeight : ℚ
  roiPolygon : Option (List Pos2)
  useROI : Bool
  scoringWeights : ScoringWeights
  deriving Repr

/-- The constructor's config values. -/
def defaultConfig : EngineConfig :=
  { mapWidth := 100, mapHeight := 100, resolution := 0.2, maxDistance := 20
    maxDuration := 600, clusterRadius := 1.0, minClusterSize := 5
    explorationHeight := 1.0, updateInterval := 500
    boundaryMin := none, boundaryMax := none, enableZExploration := true
    minHeight := 0.5, maxHeight := 3.0, roiPolygon := none, useROI := false
    scoringWeights := initialScoringWeights }

/-- The engine's constant maxAttempts = 5 (never reassigned by the source). -/
def maxAttempts : ℕ := 5

/-- One component of the goalAttempts Map key, modelling x.toFixed(1):
the sign prepended when x < 0, and the magnitude rounded to tenths
(nearest, ties away from zero, per the ECMAScript toFixed rounding applied
to the exact value). -/
def keyPart (x : ℚ) : Bool × ℕ :=
  (decide (x < 0), (⌊10 * |x| + 1/2⌋).toNat)

/-- The goalAttempts key for a goal, modelling the template string
x.toFixed(1) comma y.toFixed(1) through its two injective components. -/
def goalKey (x y : ℚ) : (Bool × ℕ) × (Bool × ℕ) :=
  (keyPart x, keyPart y)

/-- Lookup in an association list modelling a JavaScript Map. -/
def alistGet (k : (Bool × ℕ) × (Bool × ℕ)) :
    List ((((Bool × ℕ) × (Bool × ℕ))) × ℕ) → Option ℕ
  | [] => none
  | e :: rest => if e.1 = k then some e.2 else alistGet k rest

/-- Map.set: replace the first binding or append a new one. -/
def alistSet (k : (Bool × ℕ) × (Bool × ℕ)) (n : ℕ) :
    List ((((Bool × ℕ) × (Bool × ℕ))) × ℕ) → List ((((Bool × ℕ) × (Bool × ℕ))) × ℕ)
  | [] => [(k, n)]
  | e :: rest => if e.1 = k then (k, n) :: rest else e :: alistSet k n rest

/-- Map.delete: drop the first binding of the key. -/
def alistErase (k : (Bool × ℕ) × (Bool × ℕ)) :
    List ((((Bool × ℕ) × (Bool × ℕ))) × ℕ) → List ((((Bool × ℕ) × (Bool × ℕ))) × ℕ)
  | [] => []
  | e :: rest => if e.1 = k then rest else e :: alistErase k rest

/-- The full mutable state of the ExplorationEngine object.  Wall-clock
timestamps are naturals (milliseconds); every Date.now() call inside one
handler reads that handler's event time. -/
structure EngineState where
  config : EngineConfig
  isExploring : Bool
  isPaused : Bool
  startPos : Option Pos3
  currentPos : Option Pos3
  startTime : Option ℕ
  lastUpdateTime : ℕ
  map : OccupancyGrid
  frontiers : List Frontier
  visitedGoals : List Pos2
  goalAttempts : List ((((Bool × ℕ) × (Bool × ℕ))) × ℕ)
  unreachableGoals : List Pos2
  currentMissionId : Option String
  currentGoal : Option Goal
  isWaitingForArrival : Bool
  isPreparingNextGoal : Bool
  missionStartTime : Option ℕ
  lastVelocityCheck : Option (ℚ × ℚ × ℕ)
  stuckStartTime : Option ℕ
  isReturningHome : Bool
  returnHomeMissionId : Option String
  sceneBounds : Option SceneBounds
  lastGoalDirection : Option (ℚ × ℚ)
  lastStatusPublishTime : ℕ

/-- The constructor state of the engine. -/
def initState : EngineState :=
  { config := defaultConfig
    isExploring := false, isPaused := false
    startPos := none, currentPos := none, startTime := none
    lastUpdateTime := 0
    map := OccupancyGrid.mk2 100 100 0.2
    frontiers := [], visitedGoals := []
    goalAttempts := [], unreachableGoals := []
    currentMissionId := none, currentGoal := none
    isWaitingForArrival := false, isPreparingNextGoal := false
    missionStartTime := none, lastVelocityCheck := none, stuckStartTime := none
    isReturningHome := false, returnHomeMissionId := none
    sceneBounds := none, lastGoalDirection := none, lastStatusPublishTime := 0 }

/-! ## Exploration engine: geometry and scoring helpers -/

/-- Ray-cast point-in-polygon test (the source's loop with j trailing i). -/
def isPointInPolygon (p : Pos2) (polygon : List Pos2) : Bool :=
  (List.range polygon.length).foldl (fun inside i =>
    let j := if i = 0 then polygon.length - 1 else i - 1
    let vi := polygon.getD i ⟨0, 0⟩
    let vj := polygon.getD j ⟨0, 0⟩
    let intersect := (decide (vi.y > p.y) != decide (vj.y > p.y)) &&
      decide (p.x < (vj.x - vi.x) * (p.y - vi.y) / (vj.y - vi.y) + vi.x)
    if intersect then !inside else inside) false

/-- One step of the Bresenham walk of bresenhamLine.  The source loops
while(true); before the end point is pushed each iteration advances x or y
by one strictly toward it without overshooting, so at most dx + dy
iterations precede the final push and the fuel below covers the loop. -/
def bresenhamAux (x1 y1 dx dy sx sy : ℤ) : ℕ → ℤ → ℤ → ℤ → List (ℤ × ℤ)
  | 0, _, _, _ => []
  | fuel + 1, x, y, err =>
    (x, y) ::
      (if x = x1 ∧ y = y1 then []
       else
        let e2 := 2 * err
        let (err1, x') := if e2 > -dy then (err - dy, x + sx) else (err, x)
        let (err2, y') := if e2 < dx then (err1 + dx, y + sy) else (err1, y)
        bresenhamAux x1 y1 dx dy sx sy fuel x' y' err2)

/-- bresenhamLine(x0, y0, x1, y1): all grid points of the line, end points
included. -/
def bresenhamLine (x0 y0 x1 y1 : ℤ) : List (ℤ × ℤ) :=
  bresenhamAux x1 y1 |x1 - x0| |y1 - y0|
    (if x0 < x1 then 1 else -1) (if y0 < y1 then 1 else -1)
    ((x1 - x0).natAbs + (y1 - y0).natAbs + 1) x0 y0 (|x1 - x0| - |y1 - y0|)

/-- isPathClear(start, goal): every cell of the Bresenham line between the
two world positions' grid cells must be in the map with inflated occupancy
exactly 1 (free). -/
def isPathClear (m : OccupancyGrid) (startX startY goalX goalY : ℚ) : Bool :=
  ((bresenhamLine (m.worldToGrid startX startY).1 (m.worldToGrid startX startY).2
      (m.worldToGrid goalX goalY).1 (m.worldToGrid goalX goalY).2).all
    (fun p => m.isInMap p.1 p.2 && decide (m.getInflatedOccupancy p.1 p.2 = 1)))

/-- Exact truth value of sqrt(s) * res > c for an integer s >= 0 (the
distance test of the density and obstacle-count scans, where the source
compares Math.sqrt(dx*dx + dy*dy) * resolution against a radius). -/
def sqrtMulGt (s : ℤ) (res c : ℚ) : Bool :=
  if 0 < res then decide (c < 0) || decide (c * c < (s : ℚ) * res * res)
  else if res = 0 then decide (c < 0)
  else decide (c < 0 ∧ (s : ℚ) * res * res < c * c)

/-- calculatePointCloudDensity(x, y, radius): obstacle fraction plus 0.3
of the unknown fraction over the disk, clamped to 1; 0.5 for an empty
scan. -/
def calculatePointCloudDensity (cfg : EngineConfig) (m : OccupancyGrid)
    (x y radius : ℚ) : ℚ :=
  let grid := m.worldToGrid x y
  let rg : ℤ := ⌈radius / cfg.resolution⌉
  let counts := (List.range (2 * rg + 1).toNat).foldl (fun acc dxi =>
    (List.range (2 * rg + 1).toNat).foldl (fun acc2 dyi =>
      let dx : ℤ := (dxi : ℤ) - rg
      let dy : ℤ := (dyi : ℤ) - rg
      let gx := grid.1 + dx
      let gy := grid.2 + dy
      if m.isInMap gx gy then
        if sqrtMulGt (dx * dx + dy * dy) cfg.resolution radius then acc2
        else
          let occ := m.getOccupancy gx gy
          if decide (((occ : ℚ)) < -0.5) then (acc2.1 + 1, acc2.2.1, acc2.2.2 + 1)
          else if occ = 0 then (acc2.1, acc2.2.1 + 1, acc2.2.2 + 1)
          else (acc2.1, acc2.2.1, acc2.2.2 + 1)
      else acc2) acc) ((0, 0, 0) : ℕ × ℕ × ℕ)
  if counts.2.2 = 0 then 0.5
  else
    min ((counts.1 : ℚ) / counts.2.2 + 0.3 * ((counts.2.1 : ℚ) / counts.2.2)) 1

/-- countNearbyObstacles(x, y, radius): number of clearly occupied cells
within the disk. -/
def countNearbyObstacles (cfg : EngineConfig) (m : OccupancyGrid)
    (x y radius : ℚ) : ℕ :=
  let grid := m.worldToGrid x y
  let rg : ℤ := ⌈radius / cfg.resolution⌉
  (List.range (2 * rg + 1).toNat).foldl (fun acc dxi =>
    (List.range (2 * rg + 1).toNat).foldl (fun acc2 dyi =>
      let dx : ℤ := (dxi : ℤ) - rg
      let dy : ℤ := (dyi : ℤ) - rg
      let gx := grid.1 + dx
      let gy := grid.2 + dy
      if m.isInMap gx gy then
        if sqrtMulGt (dx * dx + dy * dy) cfg.resolution radius then acc2
        else if decide (((m.getOccupancy gx gy : ℤ) : ℚ) < -0.5) then acc2 + 1
        else acc2
      else acc2) acc) 0

/-- isWithinBounds(x, y, z). -/
def isWithinBounds (cfg : EngineConfig) (sceneBounds : Option SceneBounds)
    (x y z : ℚ) : Bool :=
  match cfg.boundaryMin, cfg.boundaryMax with
  | some bmin, some bmax =>
    decide (bmin.x ≤ x ∧ x ≤ bmax.x ∧ bmin.y ≤ y ∧ y ≤ bmax.y ∧ bmin.z ≤ z ∧ z ≤ bmax.z)
  | _, _ =>
    match sceneBounds with
    | some sb =>
      decide (sb.minX ≤ x ∧ x ≤ sb.maxX ∧ sb.minY ≤ y ∧ y ≤ sb.maxY ∧
        sb.minZ ≤ z ∧ z ≤ sb.maxZ)
    | none => true

/-- The height levels enumerated by the Z-exploration strategy
(minHeight, minHeight + 0.5, ..., up to maxHeight). -/
def heightLevels (minZ maxZ : ℚ) : List ℚ :=
  if minZ ≤ maxZ then
    (List.range ((⌊(maxZ - minZ) / 0.5⌋).toNat + 1)).map (fun k => minZ + 0.5 * (k : ℚ))
  else []

/-- The target height chosen for a frontier.  When the level list is empty
(degenerate maxHeight < minHeight configs) the source would produce NaN;
the model keeps explorationHeight there, a corner no claim depends on. -/
def computeTargetHeight (cfg : EngineConfig) (fx fy : ℚ) : ℚ :=
  if cfg.enableZExploration then
    let levels := heightLevels cfg.minHeight cfg.maxHeight
    let hash : ℤ := ⌊fx * 10⌋ + ⌊fy * 10⌋
    let th := levels.getD (hash.natAbs % levels.length) cfg.explorationHeight
    max cfg.minHeight (min cfg.maxHeight th)
  else cfg.explorationHeight

/-- The filter chain of selectBestFrontier for a single candidate, in the
source's order; returns the goal record the candidate would produce. -/
def candidateGoal (cfg : EngineConfig) (m : OccupancyGrid)
    (unreachable visited : List Pos2) (sceneBounds : Option SceneBounds)
    (pos : Pos3) (f : Frontier) : Option Goal :=
  if cfg.useROI && cfg.roiPolygon.isSome &&
      !(isPointInPolygon ⟨f.x, f.y⟩ (cfg.roiPolygon.getD [])) then none
  else if unreachable.any (fun u => hypotLt (f.x - u.x) (f.y - u.y) 2) then none
  else if !(isPathClear m pos.x pos.y f.x f.y) then none
  else if decide (m.getExploredArea > 50) &&
      decide (countNearbyObstacles cfg m f.x f.y 1.5 = 0) then none
  else if !(m.isInMap (m.worldToGrid f.x f.y).1 (m.worldToGrid f.x f.y).2) then none
  else if decide (m.getOccupancy (m.worldToGrid f.x f.y).1 (m.worldToGrid f.x f.y).2
      = -1) then none
  else if hypotLt (f.x - pos.x) (f.y - pos.y) 0.5 then none
  else if hypotGt (f.x - pos.x) (f.y - pos.y) 15 then none
  else if !(isWithinBounds cfg sceneBounds f.x f.y (computeTargetHeight cfg f.x f.y))
    then none
  else if visited.any (fun v => hypotLt (f.x - v.x) (f.y - v.y) 0.3) then none
  else some { x := f.x, y := f.y, z := computeTargetHeight cfg f.x f.y, size := f.size
              density := calculatePointCloudDensity cfg m f.x f.y 2
              pathClear := true }

/-- selectBestFrontier: fold over the candidates keeping the best-scoring
one.  The floating-point score is irrational (it divides by Math.hypot),
so its strict comparison against the running best is abstracted as the
parameter better; the first surviving candidate always replaces the
initial bestScore of negative infinity. -/
def selectStep (better : Goal → Goal → Bool) (cfg : EngineConfig)
    (m : OccupancyGrid) (unreachable visited : List Pos2)
    (sceneBounds : Option SceneBounds) (pos : Pos3)
    (best : Option Goal) (f : Frontier) : Option Goal :=
  match candidateGoal cfg m unreachable visited sceneBounds pos f with
  | none => best
  | some c =>
    match best with
    | none => some c
    | some b => if better b c then some c else best

def selectBestFrontier (better : Goal → Goal → Bool) (cfg : EngineConfig)
    (m : OccupancyGrid) (unreachable visited : List Pos2)
    (sceneBounds : Option SceneBounds) (pos : Pos3)
    (frontiers : List Frontier) : Option Goal :=
  frontiers.foldl (selectStep better cfg m unreachable visited sceneBounds pos) none

/-! ## Exploration engine: map update -/

/-- hasUnknownNeighbor(gx, gy): one of the 8 neighbours is unknown. -/
def hasUnknownNeighbor (m : OccupancyGrid) (gx gy : ℤ) : Bool :=
  (List.range 3).any (fun dxi => (List.range 3).any (fun dyi =>
    let dx : ℤ := (dxi : ℤ) - 1
    let dy : ℤ := (dyi : ℤ) - 1
    !(decide (dx = 0 ∧ dy = 0)) && decide (m.getOccupancy (gx + dx) (gy + dy) = 0)))

/-- The body of one clusterFrontiers iteration: open a cluster at index i
unless visited, sweep the later indices for members within clusterRadius of
the anchor, and keep the centroid when the cluster is large enough. -/
def clusterStep (cfg : EngineConfig) (raw : List Pos2)
    (acc : List ℕ × List Frontier) (i : ℕ) : List ℕ × List Frontier :=
  if acc.1.contains i then acc
  else
    let anchor := raw.getD i ⟨0, 0⟩
    let st := (List.range (raw.length - (i + 1))).foldl
      (fun (st : List ℕ × List Pos2) jofs =>
        let j := i + 1 + jofs
        if st.1.contains j then st
        else
          let p := raw.getD j ⟨0, 0⟩
          if hypotLt (anchor.x - p.x) (anchor.y - p.y) cfg.clusterRadius then
            (j :: st.1, st.2 ++ [p])
          else st) (i :: acc.1, [anchor])
    if cfg.minClusterSize ≤ st.2.length then
      (st.1, acc.2 ++ [{ x := (st.2.map Pos2.x).sum / (st.2.length : ℚ)
                         y := (st.2.map Pos2.y).sum / (st.2.length : ℚ)
                         size := st.2.length }])
    else (st.1, acc.2)

/-- clusterFrontiers(rawFrontiers): greedy anchored single-linkage
clustering in discovery order. -/
def clusterFrontiers (cfg : EngineConfig) (raw : List Pos2) : List Frontier :=
  if raw.isEmpty then []
  else ((List.range raw.length).foldl (clusterStep cfg raw) ([], [])).2

/-- detectFrontiers(): scan the clipped window around the vehicle for free
cells with an unknown neighbour, then cluster them. -/
def detectFrontiers (cfg : EngineConfig) (m : OccupancyGrid) (pos : Pos3) :
    List Frontier :=
  let droneGrid := m.worldToGrid pos.x pos.y
  let searchRadius : ℤ := ⌊cfg.maxDistance / cfg.resolution⌋
  let xMin := max 1 (droneGrid.1 - searchRadius)
  let xMax := min ((m.width : ℤ) - 2) (droneGrid.1 + searchRadius)
  let yMin := max 1 (droneGrid.2 - searchRadius)
  let yMax := min ((m.height : ℤ) - 2) (droneGrid.2 + searchRadius)
  let cands := (List.range (xMax - xMin + 1).toNat).foldl (fun acc xi =>
    (List.range (yMax - yMin + 1).toNat).foldl (fun acc2 yi =>
      let x := xMin + (xi : ℤ)
      let y := yMin + (yi : ℤ)
      if m.getOccupancy x y = 1 then
        if hasUnknownNeighbor m x y then
          acc2 ++ [(⟨(m.gridToWorld x y).1, (m.gridToWorld x y).2⟩ : Pos2)]
        else acc2
      else acc2) acc) ([] : List Pos2)
  clusterFrontiers cfg cands

/-- calculateSceneBounds(pointcloud): min / max of the cloud, shrunk by
the safety margins.  Only called on nonempty clouds. -/
def calcSceneBounds (pc : List Pos3) : Option SceneBounds :=
  match pc with
  | [] => none
  | p :: rest =>
    let mm := rest.foldl (fun (mm : ℚ × ℚ × ℚ × ℚ × ℚ × ℚ) q =>
        (min mm.1 q.x, max mm.2.1 q.x, min mm.2.2.1 q.y, max mm.2.2.2.1 q.y,
          min mm.2.2.2.2.1 q.z, max mm.2.2.2.2.2 q.z))
      (p.x, p.x, p.y, p.y, p.z, p.z)
    some { minX := mm.1 + 1.5, maxX := mm.2.1 - 1.5
           minY := mm.2.2.1 + 1.5, maxY := mm.2.2.2.1 - 1.5
           minZ := max 0.5 (mm.2.2.2.2.1 + 0.3)
           maxZ := min 2.5 (mm.2.2.2.2.2 - 0.5) }

/-- updateMapFromPointCloud: every 10th point, filtered to the vehicle's
height band, raytraced free with an occupied end point; then the inflated
grid is recomputed. -/
def updateMapFromPointCloud (m : OccupancyGrid) (pc : List Pos3)
    (dronePos : Pos3) : OccupancyGrid :=
  let droneGrid := m.worldToGrid dronePos.x dronePos.y
  let m2 := (List.range ((pc.length + 9) / 10)).foldl (fun macc k =>
    let point := pc.getD (10 * k) ⟨0, 0, 0⟩
    if decide (|point.z - dronePos.z| > 1) then macc
    else
      let obstacleGrid := macc.worldToGrid point.x point.y
      if macc.isInMap obstacleGrid.1 obstacleGrid.2 then
        let macc2 := macc.raytrace droneGrid.1 droneGrid.2 obstacleGrid.1 obstacleGrid.2
        macc2.setOccupancy obstacleGrid.1 obstacleGrid.2 (-1)
      else macc) m
  m2.inflateObstacles

/-- The free-space disk of radius 15 cells seeded around the start cell by
startExploration. -/
def seedDisk (m : OccupancyGrid) (cx cy : ℤ) : OccupancyGrid :=
  (List.range 31).foldl (fun macc dxi =>
    (List.range 31).foldl (fun macc2 dyi =>
      let dx : ℤ := (dxi : ℤ) - 15
      let dy : ℤ := (dyi : ℤ) - 15
      let gx := cx + dx
      let gy := cy + dy
      if macc2.isInMap gx gy then
        if dx * dx + dy * dy ≤ 225 then macc2.setOccupancy gx gy 1 else macc2
      else macc2) macc) m

/-! ## Exploration engine: handlers -/

/-- The attempt-count and blacklist block shared verbatim by the arrival
timeout (onPointCloudReceived) and the stuck handler (onOdometryReceived):
increment the per-key counter of the current goal and append it to
unreachableGoals once the counter reaches maxAttempts.  The caller clears
the waiting state afterwards, as in the source. -/
def recordFailedAttempt (s : EngineState) : EngineState :=
  match s.currentGoal with
  | some g =>
    let key := goalKey g.x g.y
    let attempts := (alistGet key s.goalAttempts).getD 0 + 1
    let s1 := { s with goalAttempts := alistSet key attempts s.goalAttempts }
    if maxAttempts ≤ attempts then
      { s1 with unreachableGoals := s1.unreachableGoals ++ [⟨g.x, g.y⟩] }
    else s1
  | none => s

/-- Exact truth value of Math.hypot(dx, dy) / (dt / 1000) < 0.1 (the stuck
velocity test); dt = 0 gives Infinity or NaN (never below the threshold),
a negative dt a negative value or negative zero (always below). -/
def velocityBelowThreshold (dx dy : ℚ) (dt : ℤ) : Bool :=
  if 0 < dt then hypotLt dx dy ((dt : ℚ) / 10000)
  else if dt = 0 then false
  else true

/-- returnToHome(): requires both start and current positions, publishes
the single-waypoint return mission (a bus effect) and records the
returning state.  The path-clear probe only feeds a log line. -/
def returnToHome (now : ℕ) (s : EngineState) : EngineState :=
  match s.startPos, s.currentPos with
  | some _, some _ =>
    { s with isReturningHome := true
             returnHomeMissionId := some ("return_home_" ++ toString now) }
  | _, _ => s

/-- stopExploration(reason): the reason string only feeds logs and the
emitted event payload.  When the vehicle is farther than 1 m from the
start, returnToHome is triggered. -/
def stopExploration (now : ℕ) (s : EngineState) : EngineState :=
  if !s.isExploring then s
  else
    let s1 := { s with isExploring := false, isPaused := false
                       isWaitingForArrival := false }
    match s1.startPos, s1.currentPos with
    | some sp, some cp =>
      if hypotGt (cp.x - sp.x) (cp.y - sp.y) 1 then returnToHome now s1 else s1
    | _, _ => s1

/-- explorationStep(): the planning tick.  currentPos and startPos are
always set while exploring (startExploration guarantees both); the
fallback returns the state unchanged where the source would throw. -/
def explorationStep (pick : EngineState → Goal → Goal → Bool) (now : ℕ)
    (s : EngineState) : EngineState :=
  if !s.isExploring || s.isPaused then s
  else if s.isWaitingForArrival && !s.isPreparingNextGoal then s
  else
    let s := if s.isPreparingNextGoal then { s with isWaitingForArrival := false } else s
    match s.currentPos, s.startPos with
    | some cp, some sp =>
      -- null startTime coerces to 0 in the subtraction, as in JavaScript
      if decide (((now : ℚ) - (s.startTime.getD 0)) / 1000 > s.config.maxDuration) then
        stopExploration now s
      else if hypotGt (cp.x - sp.x) (cp.y - sp.y) s.config.maxDistance then
        stopExploration now s
      else
        let frontiers := detectFrontiers s.config s.map cp
        let s := { s with frontiers := frontiers }
        if frontiers.isEmpty then stopExploration now s
        else
          match selectBestFrontier (pick s) s.config s.map s.unreachableGoals
              s.visitedGoals s.sceneBounds cp frontiers with
          | none => stopExploration now s
          | some goal =>
            -- the source normalises lastGoalDirection by the distance; only
            -- its direction feeds the abstracted score, so the model stores
            -- the unnormalised difference vector
            { s with currentGoal := some goal
                     isWaitingForArrival := true
                     isPreparingNextGoal := false
                     missionStartTime := some now
                     currentMissionId := some ("exploration_" ++ toString now)
                     lastGoalDirection := some (goal.x - cp.x, goal.y - cp.y) }
    | _, _ => s

/-- First block of onPointCloudReceived: the scene-bounds estimate, the
map update and the throttled status publish. -/
def cloudMapStage (now : ℕ) (pc : List Pos3) (cpos : Pos3) (s : EngineState) :
    EngineState :=
  let s := if s.sceneBounds.isNone && decide (100 < pc.length) then
      { s with sceneBounds := calcSceneBounds pc } else s
  let s := { s with map := updateMapFromPointCloud s.map pc cpos }
  if s.lastStatusPublishTime = 0 ||
      decide ((now : ℚ) - (s.lastStatusPublishTime : ℚ) > 2000) then
    { s with lastStatusPublishTime := now } else s

/-- Second block of onPointCloudReceived: the arrival-timeout check, which
records a failed attempt and clears the waiting state after 8000 ms. -/
def cloudTimeoutStage (now : ℕ) (s : EngineState) : EngineState :=
  if s.isWaitingForArrival then
    match s.missionStartTime with
    | some t0 =>
      if decide ((now : ℤ) - (t0 : ℤ) > 8000) then
        let s1 := recordFailedAttempt s
        { s1 with isWaitingForArrival := false, currentGoal := none
                  missionStartTime := none }
      else s
    | none => s
  else s

/-- Third block of onPointCloudReceived: the throttled replanning step. -/
def cloudPlanStage (pick : EngineState → Goal → Goal → Bool) (now : ℕ)
    (s : EngineState) : EngineState :=
  if s.isExploring && !s.isPaused && !s.isWaitingForArrival then
    if decide ((now : ℚ) - (s.lastUpdateTime : ℚ) > s.config.updateInterval) then
      let s2 := explorationStep pick now s
      { s2 with lastUpdateTime := now }
    else s
  else s

/-- onPointCloudReceived(pointcloud). -/
def onPointCloudReceived (pick : EngineState → Goal → Goal → Bool) (now : ℕ)
    (pc : List Pos3) (s : EngineState) : EngineState :=
  match s.currentPos with
  | none => s
  | some cpos =>
    if pc.isEmpty then s
    else cloudPlanStage pick now (cloudTimeoutStage now (cloudMapStage now pc cpos s))

/-- The stuck condition of onOdometryReceived: the sampled horizontal
velocity is below 0.1 m/s and the low-velocity episode started more than
STUCK_THRESHOLD = 3000 ms ago. -/
def stuckCheck (now : ℕ) (newPos : Pos3) (s : EngineState) : Bool :=
  match s.lastVelocityCheck with
  | some lvc =>
    velocityBelowThreshold (newPos.x - lvc.1) (newPos.y - lvc.2.1)
      ((now : ℤ) - (lvc.2.2 : ℤ)) &&
    (match s.stuckStartTime with
     | some st => decide ((now : ℤ) - (st : ℤ) > 3000)
     | none => false)
  | none => false

/-- First block of onOdometryReceived: the return-home completion check
(within 0.5 m of the start the returning flag is cleared). -/
def odomReturnCheck (newPos : Pos3) (s : EngineState) : EngineState :=
  match s.startPos with
  | some sp =>
    if s.isReturningHome then
      if hypotLt (newPos.x - sp.x) (newPos.y - sp.y) 0.5 then
        { s with isReturningHome := false, returnHomeMissionId := none }
      else s
    else s
  | none => s

/-- Remainder of onOdometryReceived: stuck detection, the arrival check
and the currentPos update. -/
def odomCore (now : ℕ) (newPos : Pos3) (s : EngineState) : EngineState :=
  if s.isWaitingForArrival then
    match s.currentGoal with
    | some g =>
      -- stuck detection; a firing stuck check returns without updating
      -- currentPos, exactly as the source's early return
      let stuckFired := stuckCheck now newPos s
      if stuckFired then
        let s1 := recordFailedAttempt s
        { s1 with isWaitingForArrival := false, currentGoal := none
                  missionStartTime := none, stuckStartTime := none
                  lastVelocityCheck := none }
      else
        let s :=
          match s.lastVelocityCheck with
          | some lvc =>
            if velocityBelowThreshold (newPos.x - lvc.1) (newPos.y - lvc.2.1)
                ((now : ℤ) - (lvc.2.2 : ℤ)) then
              match s.stuckStartTime with
              | none => { s with stuckStartTime := some now }
              | some _ => s
            else
              if s.stuckStartTime.isSome then { s with stuckStartTime := none } else s
          | none => s
        let s := { s with lastVelocityCheck := some (newPos.x, newPos.y, now) }
        let s := if hypotLe (newPos.x - g.x) (newPos.y - g.y) 1.5 &&
            !s.isPreparingNextGoal then
            { s with isPreparingNextGoal := true } else s
        let s :=
          if hypotLt (newPos.x - g.x) (newPos.y - g.y) 0.3 then
            { s with visitedGoals := s.visitedGoals ++ [⟨g.x, g.y⟩]
                     goalAttempts := alistErase (goalKey g.x g.y) s.goalAttempts
                     isWaitingForArrival := false, currentGoal := none
                     missionStartTime := none, isPreparingNextGoal := false
                     stuckStartTime := none, lastVelocityCheck := none }
          else s
        { s with currentPos := some newPos }
    | none => { s with currentPos := some newPos }
  else { s with currentPos := some newPos }

/-- onOdometryReceived(odometry); the adapter extracts the position from
either accepted shape, malformed events return before reaching here. -/
def onOdometryReceived (now : ℕ) (newPos : Pos3) (s : EngineState) : EngineState :=
  odomCore now newPos (odomReturnCheck newPos s)

/-- The options object of startExploration: an optional start position
plus the Object.assign merge of the remaining keys into the config,
modelled as the per-field overwrite it produces. -/
structure StartOptions where
  startPosition : Option Pos3
  cfgUpdate : EngineConfig → EngineConfig

/-- startExploration(options).  The MQTT position / height-limit publishes
and the 100 ms await are bus effects; handlers are modelled atomically. -/
def startExploration (now : ℕ) (opts : StartOptions) (s : EngineState) : EngineState :=
  if s.isExploring then s
  else
    let s := match opts.startPosition with
      | some p => { s with currentPos := some p }
      | none => s
    match s.currentPos with
    | none => s
    | some cp =>
      let s := { s with config := opts.cfgUpdate s.config }
      let s := { s with isPaused := false, startPos := some cp
                        startTime := some now, lastUpdateTime := 0
                        visitedGoals := [], isWaitingForArrival := false
                        missionStartTime := none }
      let m0 := OccupancyGrid.mk2 s.config.mapWidth s.config.mapHeight s.config.resolution
      let sg := m0.worldToGrid cp.x cp.y
      let m1 := seedDisk m0 sg.1 sg.2
      { s with map := m1, isExploring := true }

/-- pauseExploration(). -/
def pauseExploration (s : EngineState) : EngineState :=
  if !s.isExploring then s else { s with isPaused := true }

/-- resumeExploration(): clear the pause and waiting flags, then run a
planning step immediately. -/
def resumeExploration (pick : EngineState → Goal → Goal → Bool) (now : ℕ)
    (s : EngineState) : EngineState :=
  if !s.isExploring then s
  else explorationStep pick now { s with isPaused := false, isWaitingForArrival := false }

/-- reset(): stopExploration, then reset the grid, frontiers and visited
goals (goalAttempts and unreachableGoals are not touched by the source). -/
def engineReset (now : ℕ) (s : EngineState) : EngineState :=
  let s1 := stopExploration now s
  { s1 with map := s1.map.reset, frontiers := [], visitedGoals := [] }

/-- The events of the engine's single-threaded loop: the two stream
callbacks, the public control calls, and the deferred planning tick
scheduled by startExploration (setTimeout). -/
inductive Event where
  | cloud (now : ℕ) (pc : List Pos3)
  | odom (now : ℕ) (pos : Pos3)
  | start (now : ℕ) (opts : StartOptions)
  | stop (now : ℕ)
  | goHome (now : ℕ)
  | pauseEv
  | resumeEv (now : ℕ)
  | tick (now : ℕ)
  | resetEv (now : ℕ)

/-- One event of the engine loop.  pick is the abstracted strict score
comparison of selectBestFrontier, given access to the engine state it
reads (weights, positions, visited history, last direction). -/
def step (pick : EngineState → Goal → Goal → Bool) (s : EngineState) :
    Event → EngineState
  | Event.cloud now pc => onPointCloudReceived pick now pc s
  | Event.odom now pos => onOdometryReceived now pos s
  | Event.start now opts => startExploration now opts s
  | Event.stop now => stopExploration now s
  | Event.goHome now => returnToHome now s
  | Event.pauseEv => pauseExploration s
  | Event.resumeEv now => resumeExploration pick now s
  | Event.tick now => explorationStep pick now s
  | Event.resetEv now => engineReset now s

/-- A state reachable from the constructor state by some event sequence. -/
def Reachable (pick : EngineState → Goal → Goal → Bool) (s : EngineState) : Prop :=
  ∃ evs : List Event, s = evs.foldl (step pick) initState


/-- The state-machine safety property of the spec: a returning controller
is not exploring. -/
def returnInvariant (s : EngineState) : Prop :=
  s.isReturningHome = true → s.isExploring = false

/-- How one transition may move the two mode flags without breaking the
safety property: it stops exploring, ends (or stays out of) the returning
mode, or leaves both flags unchanged. -/
def flagsOk (s t : EngineState) : Prop :=
  t.isExploring = false ∨ t.isReturningHome = false ∨
    (t.isReturningHome = s.isReturningHome ∧ t.isExploring = s.isExploring)

/-- A state with a nonempty visited history, used to exhibit the clearing
write of startExploration. -/
def sC3 : EngineState :=
  { initState with visitedGoals := [⟨1, 1⟩], currentPos := some ⟨0, 0, 1⟩ }

/-- A state with pending attempt bookkeeping, used to exhibit that reset
leaves the failed-attempt counters and the blacklist in place. -/
def sC9 : EngineState :=
  { initState with goalAttempts := [(goalKey 1 1, 3)], unreachableGoals := [⟨5, 5⟩] }

/-- The concrete all-free 5 x 5 grid used by the C4 witness. -/
def gridC4 : OccupancyGrid :=
  { width := 5, height := 5, resolution := 1, originX := -5/2, originY := -5/2
    data := List.replicate 25 1
    inflatedData := List.replicate 25 1
    robotRadius := 0.2, inflationRadius := 1
    statsUnknown := 0, statsFree := 25, statsOccupied := 0 }

/-- Config used by the C4 witness (matching the witness grid). -/
def cfgC4 : EngineConfig :=
  { defaultConfig with mapWidth := 5, mapHeight := 5, resolution := 1 }


/-- The bookkeeping invariant of the failed-attempt machinery: every
counter is at most maxAttempts, the current goal's counter (when present)
is strictly below maxAttempts, and a counter that has reached maxAttempts
has its goal recorded in the unreachable blacklist under the same key. -/
def attemptsInv (s : EngineState) : Prop :=
  (∀ kv ∈ s.goalAttempts, kv.2 ≤ maxAttempts) ∧
  (∀ g n, s.currentGoal = some g →
    alistGet (goalKey g.x g.y) s.goalAttempts = some n → n < maxAttempts) ∧
  (∀ kv ∈ s.goalAttempts, kv.2 = maxAttempts →
    ∃ u ∈ s.unreachableGoals, goalKey u.x u.y = kv.1)

/-- An 11 x 11 grid at 0.2 m resolution, free except for three unknown
columns on the right; the frontier along column 7 clusters to a goal on a
free cell. -/
def gridC2 : OccupancyGrid :=
  { width := 11, height := 11, resolution := 0.2, originX := -11/10, originY := -11/10
    data := (List.range 121).map (fun i => if 8 ≤ i % 11 then 0 else 1)
    inflatedData := (List.range 121).map (fun i => if 8 ≤ i % 11 then 0 else 1)
    robotRadius := 0.2, inflationRadius := 1
    statsUnknown := 33, statsFree := 88, statsOccupied := 0 }

/-- An exploring state waiting on a goal whose mission timed out: the next
point-cloud event records the failure and then replans immediately. -/
def sC2 : EngineState :=
  { initState with
    config := { defaultConfig with mapWidth := 11, mapHeight := 11 }
    isExploring := true
    startPos := some ⟨-1/2, -2/5, 1⟩
    currentPos := some ⟨-1/2, -2/5, 1⟩
    startTime := some 0
    map := gridC2
    currentGoal := some ⟨2, 2, 1, 5, 0, true⟩
    isWaitingForArrival := true
    missionStartTime := some 0 }

/-- The point cloud of the C2 counterexample: one point outside the
vehicle's height band, so the map is left as crafted. -/
def pcC2 : List Pos3 := [⟨0, 0, 3⟩]

/-- A minimal waiting state for the C2 witness. -/
def sW2 : EngineState :=
  { initState with
    currentGoal := some ⟨1, 1, 1, 1, 0, true⟩
    isWaitingForArrival := true
    missionStartTime := some 0 }

/-! ## Theorems -/

theorem listSet_length (l : List ℤ) (i : ℕ) (v : ℤ) :
    (listSet l i v).length = l.length := by
  induction l generalizing i with
  | nil => rfl
  | cons x xs ih =>
    cases i with
    | zero => rfl
    | succ n => simp [listSet, ih]

theorem listSet_getD_eq (l : List ℤ) (i : ℕ) (v : ℤ) (h : i < l.length) :
    (listSet l i v).getD i 0 = v := by
  induction l generalizing i with
  | nil => simp at h
  | cons x xs ih =>
    cases i with
    | zero => rfl
    | succ n =>
      simp only [listSet, List.getD_cons_succ]
      exact ih n (by simpa using h)

theorem listSet_getD_ne (l : List ℤ) (i j : ℕ) (v : ℤ) (h : i ≠ j) :
    (listSet l i v).getD j 0 = l.getD j 0 := by
  induction l generalizing i j with
  | nil => rfl
  | cons x xs ih =>
    cases i with
    | zero =>
      cases j with
      | zero => exact absurd rfl h
      | succ m => rfl
    | succ n =>
      cases j with
      | zero => rfl
      | succ m =>
        simp only [listSet, List.getD_cons_succ]
        exact ih n m (by omega)

/-- Correctness of hypotLt against the real square root. -/
theorem hypotLt_iff (dx dy c : ℚ) :
    hypotLt dx dy c = true ↔
      Real.sqrt ((dx : ℝ) * dx + (dy : ℝ) * dy) < (c : ℝ) := by
  simp only [hypotLt, decide_eq_true_eq]
  constructor
  · rintro ⟨hc, hlt⟩
    rcases lt_or_eq_of_le hc with hc' | hc'
    · rw [Real.sqrt_lt' (by exact_mod_cast hc' : (0 : ℝ) < (c : ℝ))]
      have h1 : ((dx * dx + dy * dy : ℚ) : ℝ) < ((c * c : ℚ) : ℝ) := by
        exact_mod_cast hlt
      push_cast at h1
      nlinarith [h1]
    · exfalso
      have := mul_self_nonneg dx
      have := mul_self_nonneg dy
      nlinarith [hlt, hc'.symm]
  · intro h
    have hc : (0 : ℝ) < (c : ℝ) := lt_of_le_of_lt (Real.sqrt_nonneg _) h
    refine ⟨by exact_mod_cast hc.le, ?_⟩
    rw [Real.sqrt_lt' hc] at h
    have h2 : ((dx * dx + dy * dy : ℚ) : ℝ) < ((c * c : ℚ) : ℝ) := by
      push_cast
      nlinarith [h]
    exact_mod_cast h2

/-! ## Claim C7: coordinate round-trip -/

/-- C7: for every integer grid coordinate (gx, gy) with 0 <= gx < width and
0 <= gy < height (and the grid's positive resolution), worldToGrid applied
to gridToWorld(gx, gy) returns exactly (gx, gy). -/
theorem C7_worldToGrid_gridToWorld (g : OccupancyGrid) (hres : 0 < g.resolution)
    (gx gy : ℤ) (hx0 : 0 ≤ gx) (hx1 : gx < g.width) (hy0 : 0 ≤ gy) (hy1 : gy < g.height) :
    g.worldToGrid (g.gridToWorld gx gy).1 (g.gridToWorld gx gy).2 = (gx, gy) := by
  have hr : g.resolution ≠ 0 := ne_of_gt hres
  have key : ∀ (z : ℤ) (o : ℚ),
      (((z : ℚ) + 0.5) * g.resolution + o - o) / g.resolution
        = (z : ℚ) + 0.5 := by
    intro z o
    field_simp
  have floorKey : ∀ z : ℤ, ⌊(z : ℚ) + 0.5⌋ = z := by
    intro z
    rw [Int.floor_eq_iff]
    constructor
    · push_cast
      norm_num
    · push_cast
      norm_num
  simp only [OccupancyGrid.worldToGrid, OccupancyGrid.gridToWorld]
  rw [key gx g.originX, key gy g.originY, floorKey gx, floorKey gy]

/-- Witness for C7 at a concrete grid and coordinate. -/
theorem C7_witness :
    0 < (OccupancyGrid.mk2 4 4 (1/5)).resolution ∧
      (OccupancyGrid.mk2 4 4 (1/5)).worldToGrid
        ((OccupancyGrid.mk2 4 4 (1/5)).gridToWorld 2 3).1
        ((OccupancyGrid.mk2 4 4 (1/5)).gridToWorld 2 3).2 = (2, 3) :=
  ⟨by norm_num [OccupancyGrid.mk2],
    C7_worldToGrid_gridToWorld _ (by norm_num [OccupancyGrid.mk2]) 2 3 (by decide)
      (by decide) (by decide) (by decide)⟩


theorem cnt_replicate_self (n : ℕ) : cnt 0 (List.replicate n 0) = n := by
  induction n with
  | zero => rfl
  | succ m ih => simpa [cnt, List.replicate, List.countP_cons] using ih

theorem cnt_replicate_ne (n : ℕ) (v : ℤ) (h : v ≠ 0) :
    cnt v (List.replicate n 0) = 0 := by
  induction n with
  | zero => rfl
  | succ m ih =>
    simp only [cnt, List.replicate, List.countP_cons] at *
    have : ((0 : ℤ) == v) = false := by
      simp [beq_iff_eq]
      omega
    simp [this, ih]

theorem statsGood_mk2 (w h : ℕ) (r : ℚ) : statsGood (OccupancyGrid.mk2 w h r) := by
  refine ⟨?_, ?_, ?_, ?_, ?_⟩
  · simp [OccupancyGrid.mk2, cnt_replicate_self]
  · rw [show (OccupancyGrid.mk2 w h r).data = List.replicate (w * h) 0 from rfl,
      cnt_replicate_ne (w * h) 1 (by decide)]
    rfl
  · rw [show (OccupancyGrid.mk2 w h r).data = List.replicate (w * h) 0 from rfl,
      cnt_replicate_ne (w * h) (-1) (by decide)]
    rfl
  · intro v hv
    simp [OccupancyGrid.mk2] at hv
    simp [hv.2]
  · simp [OccupancyGrid.mk2]

theorem cnt_listSet (l : List ℤ) (i : ℕ) (v w : ℤ) (h : i < l.length) :
    (cnt w (listSet l i v) : ℤ) =
      (cnt w l : ℤ) + (if v = w then 1 else 0) - (if l.getD i 0 = w then 1 else 0) := by
  induction l generalizing i with
  | nil => simp at h
  | cons x xs ih =>
    cases i with
    | zero =>
      simp only [listSet, cnt, List.countP_cons, List.getD_cons_zero]
      by_cases hv : v = w <;> by_cases hx : x = w <;>
        simp [hv, hx, beq_iff_eq] <;> omega
    | succ n =>
      have hn : n < xs.length := by simpa using h
      have ih2 := ih n hn
      simp only [listSet, cnt, List.countP_cons, List.getD_cons_succ]
      simp only [cnt] at ih2
      by_cases hx : x = w <;> by_cases hv : v = w <;>
        by_cases hgd : xs.getD n 0 = w <;>
        simp only [hx, hv, hgd, if_true, if_false, beq_iff_eq, beq_self_eq_true] at ih2 ⊢ <;>
        simp [hx, hv, hgd] <;> omega

theorem getD_mem (l : List ℤ) (i : ℕ) (h : i < l.length) : l.getD i 0 ∈ l := by
  induction l generalizing i with
  | nil => simp at h
  | cons x xs ih =>
    cases i with
    | zero => simp
    | succ n =>
      simp only [List.getD_cons_succ]
      exact List.mem_cons_of_mem _ (ih n (by simpa using h))

theorem listSet_mem (l : List ℤ) (i : ℕ) (v w : ℤ) (h : w ∈ listSet l i v) :
    w ∈ l ∨ w = v := by
  induction l generalizing i with
  | nil => simp [listSet] at h
  | cons x xs ih =>
    cases i with
    | zero =>
      rcases List.mem_cons.mp h with h' | h'
      · right; exact h'
      · left; exact List.mem_cons_of_mem _ h'
    | succ n =>
      rcases List.mem_cons.mp h with h' | h'
      · left; simp [h']
      · rcases ih n h' with h'' | h''
        · left; exact List.mem_cons_of_mem _ h''
        · right; exact h''

theorem updateStats_statsUnknown (g : OccupancyGrid) (a b : ℤ) :
    (g.updateStats a b).statsUnknown =
      g.statsUnknown - (if a = 0 then 1 else 0) + (if b = 0 then 1 else 0) := by
  simp only [OccupancyGrid.updateStats]
  split_ifs <;> simp_all

theorem updateStats_statsFree (g : OccupancyGrid) (a b : ℤ) :
    (g.updateStats a b).statsFree =
      g.statsFree - (if a = 1 then 1 else 0) + (if b = 1 then 1 else 0) := by
  simp only [OccupancyGrid.updateStats]
  split_ifs <;> simp_all

theorem updateStats_statsOccupied (g : OccupancyGrid) (a b : ℤ) :
    (g.updateStats a b).statsOccupied =
      g.statsOccupied - (if a = -1 then 1 else 0) + (if b = -1 then 1 else 0) := by
  simp only [OccupancyGrid.updateStats]
  split_ifs <;> simp_all

theorem updateStats_data (g : OccupancyGrid) (a b : ℤ) :
    (g.updateStats a b).data = g.data := by
  simp only [OccupancyGrid.updateStats]
  split_ifs <;> rfl

theorem updateStats_dims (g : OccupancyGrid) (a b : ℤ) :
    (g.updateStats a b).width = g.width ∧ (g.updateStats a b).height = g.height := by
  simp only [OccupancyGrid.updateStats]
  split_ifs <;> exact ⟨rfl, rfl⟩

theorem statsGood_setOccupancy (g : OccupancyGrid) (gx gy v : ℤ)
    (hv : v = -1 ∨ v = 0 ∨ v = 1) (hg : statsGood g) :
    statsGood (g.setOccupancy gx gy v) := by
  obtain ⟨h0, h1, h2, hmem, hlen⟩ := hg
  unfold OccupancyGrid.setOccupancy
  by_cases hin : g.isInMap gx gy
  · simp only [hin, if_true]
    set i := (gy * g.width + gx).toNat with hi
    have hibound : i < g.data.length := by
      simp only [OccupancyGrid.isInMap, decide_eq_true_eq] at hin
      obtain ⟨hx0, hx1, hy0, hy1⟩ := hin
      rw [hlen]
      have hlt : gy * (g.width : ℤ) + gx < (g.width : ℤ) * g.height := by
        have h7 : (gy + 1 : ℤ) * g.width ≤ (g.height : ℤ) * g.width := by
          apply mul_le_mul_of_nonneg_right _ (by positivity)
          omega
        nlinarith
      have hnn : 0 ≤ gy * (g.width : ℤ) := mul_nonneg hy0 (by positivity)
      omega
    set old := g.data.getD i 0 with hold
    by_cases hne : old ≠ v
    · simp only [ne_eq, hne, not_false_eq_true, if_true]
      refine ⟨?_, ?_, ?_, ?_, ?_⟩
      · simp only [updateStats_statsUnknown, updateStats_data]
        have := cnt_listSet g.data i v 0 hibound
        rw [← hold] at this
        omega
      · simp only [updateStats_statsFree, updateStats_data]
        have := cnt_listSet g.data i v 1 hibound
        rw [← hold] at this
        omega
      · simp only [updateStats_statsOccupied, updateStats_data]
        have := cnt_listSet g.data i v (-1) hibound
        rw [← hold] at this
        omega
      · intro w hw
        simp only [updateStats_data] at hw
        rcases listSet_mem _ _ _ _ hw with h' | h'
        · exact hmem w h'
        · subst h'
          exact hv
      · simp only [updateStats_data, listSet_length, (updateStats_dims g old v).1,
          (updateStats_dims g old v).2]
        exact hlen
    · simp only [ne_eq, hne, not_true_eq_false, if_false]
      exact ⟨h0, h1, h2, hmem, hlen⟩
  · simp only [hin, if_false]
    exact ⟨h0, h1, h2, hmem, hlen⟩

theorem foldl_preserve {α β : Type} (P : α → Prop) (f : α → β → α) (l : List β) (a : α)
    (hf : ∀ x y, P x → P (f x y)) (ha : P a) : P (l.foldl f a) := by
  induction l generalizing a with
  | nil => exact ha
  | cons x xs ih => exact ih _ (hf _ _ ha)

theorem foldl_preserve_mem {α β : Type} (P : α → Prop) (f : α → β → α) (l : List β)
    (hf : ∀ x y, y ∈ l → P x → P (f x y)) (a : α) (ha : P a) : P (l.foldl f a) := by
  induction l generalizing a with
  | nil => exact ha
  | cons x xs ih =>
    exact ih (fun u v hv hu => hf u v (List.mem_cons_of_mem _ hv) hu) _
      (hf a x (List.mem_cons_self _ _) ha)

/-- If some element k of the list establishes P from the invariant Q, Q is
preserved by every step and P is preserved once established, then the fold
ends in a P-state. -/
theorem foldl_mem_establish {α β : Type} (P Q : α → Prop) (f : α → β → α) (l : List β)
    (k : β) (hkl : k ∈ l) (hQ : ∀ a b, Q a → Q (f a b))
    (hEst : ∀ a, Q a → P (f a k))
    (hP : ∀ a b, P a → P (f a b)) (a0 : α) (hQ0 : Q a0) :
    P (l.foldl f a0) := by
  induction l generalizing a0 with
  | nil => cases hkl
  | cons x xs ih =>
    rcases List.mem_cons.mp hkl with hx | hmem
    · subst hx
      exact foldl_preserve P f xs (f a0 k) hP (hEst a0 hQ0)
    · exact ih hmem (f a0 x) (hQ a0 x hQ0)

/-- setOccupancy changes only the data array and the stats counters. -/
theorem setOccupancy_frame (g : OccupancyGrid) (gx gy v : ℤ) :
    (g.setOccupancy gx gy v).width = g.width ∧
    (g.setOccupancy gx gy v).height = g.height ∧
    (g.setOccupancy gx gy v).resolution = g.resolution ∧
    (g.setOccupancy gx gy v).originX = g.originX ∧
    (g.setOccupancy gx gy v).originY = g.originY ∧
    (g.setOccupancy gx gy v).robotRadius = g.robotRadius ∧
    (g.setOccupancy gx gy v).inflationRadius = g.inflationRadius ∧
    (g.setOccupancy gx gy v).inflatedData = g.inflatedData := by
  simp only [OccupancyGrid.setOccupancy, OccupancyGrid.updateStats]
  split_ifs <;> simp_all

theorem statsGood_raytraceAux (x1 y1 dx dy sx sy : ℤ) (fuel : ℕ) :
    ∀ (g : OccupancyGrid) (x0 y0 err : ℤ), statsGood g →
      statsGood (OccupancyGrid.raytraceAux x1 y1 dx dy sx sy fuel g x0 y0 err) := by
  induction fuel with
  | zero => intro g x0 y0 err hg; exact hg
  | succ n ih =>
    intro g x0 y0 err hg
    simp only [OccupancyGrid.raytraceAux]
    have hg1 : statsGood (if g.isInMap x0 y0 ∧ g.getOccupancy x0 y0 ≠ -1 then
        g.setOccupancy x0 y0 1 else g) := by
      split_ifs with hc
      · exact statsGood_setOccupancy g x0 y0 1 (by norm_num) hg
      · exact hg
    by_cases hend : x0 = x1 ∧ y0 = y1
    · rw [if_pos hend]
      exact hg1
    · rw [if_neg hend]
      exact ih _ _ _ _ hg1

theorem statsGood_raytrace (g : OccupancyGrid) (x0 y0 x1 y1 : ℤ) (hg : statsGood g) :
    statsGood (g.raytrace x0 y0 x1 y1) :=
  statsGood_raytraceAux _ _ _ _ _ _ _ g x0 y0 _ hg

theorem gridFrame_rfl (g : OccupancyGrid) : gridFrame g g :=
  ⟨rfl, rfl, rfl, rfl, rfl, rfl, rfl, rfl, rfl⟩

theorem gridFrame_trans {a b c : OccupancyGrid} (h1 : gridFrame a b)
    (h2 : gridFrame b c) : gridFrame a c := by
  obtain ⟨u1, u2, u3, u4, u5, u6, u7, u8, u9⟩ := h1
  obtain ⟨v1, v2, v3, v4, v5, v6, v7, v8, v9⟩ := h2
  exact ⟨v1.trans u1, v2.trans u2, v3.trans u3, v4.trans u4, v5.trans u5,
    v6.trans u6, v7.trans u7, v8.trans u8, v9.trans u9⟩

theorem inflateCellStep_frame (radius cx cy dy : ℤ) (x : OccupancyGrid) (dxi : ℕ) :
    gridFrame x (OccupancyGrid.inflateCellStep radius cx cy dy x dxi) := by
  unfold OccupancyGrid.inflateCellStep gridFrame
  dsimp only
  split_ifs <;> simp [listSet_length]

theorem inflateCellRow_frame (radius cx cy : ℤ) (x : OccupancyGrid) (dyi : ℕ) :
    gridFrame x (OccupancyGrid.inflateCellRow radius cx cy x dyi) := by
  unfold OccupancyGrid.inflateCellRow
  apply foldl_preserve (gridFrame x)
  · intro a b ha
    exact gridFrame_trans ha (inflateCellStep_frame radius cx cy _ a b)
  · exact gridFrame_rfl x

/-- inflateCell changes only the inflated array (and preserves its length). -/
theorem inflateCell_frame (g : OccupancyGrid) (cx cy : ℤ) :
    gridFrame g (g.inflateCell cx cy) := by
  unfold OccupancyGrid.inflateCell
  apply foldl_preserve (gridFrame g)
  · intro a b ha
    exact gridFrame_trans ha (inflateCellRow_frame _ cx cy a b)
  · exact gridFrame_rfl g

theorem statsGood_inflateCell (g : OccupancyGrid) (cx cy : ℤ) (hg : statsGood g) :
    statsGood (g.inflateCell cx cy) := by
  obtain ⟨h0, h1, h2, hmem, hlen⟩ := hg
  obtain ⟨hw, hh, _, hd, _, hsu, hsf, hso, _⟩ := inflateCell_frame g cx cy
  exact ⟨by rw [hsu, hd]; exact h0, by rw [hsf, hd]; exact h1,
    by rw [hso, hd]; exact h2, by rw [hd]; exact hmem, by rw [hd, hw, hh]; exact hlen⟩

theorem statsGood_inflateObstaclesStep (gy : ℤ) (x : OccupancyGrid) (gxi : ℕ)
    (hx : statsGood x) : statsGood (OccupancyGrid.inflateObstaclesStep gy x gxi) := by
  unfold OccupancyGrid.inflateObstaclesStep
  split_ifs
  · exact statsGood_inflateCell x _ _ hx
  · exact hx

theorem statsGood_inflateObstacles (g : OccupancyGrid) (hg : statsGood g) :
    statsGood g.inflateObstacles := by
  unfold OccupancyGrid.inflateObstacles
  apply foldl_preserve statsGood
  · intro x gyi hx
    unfold OccupancyGrid.inflateObstaclesRow
    apply foldl_preserve statsGood
    · intro x2 gxi hx2
      exact statsGood_inflateObstaclesStep _ x2 gxi hx2
    · exact hx
  · obtain ⟨h0, h1, h2, hmem, hlen⟩ := hg
    exact ⟨h0, h1, h2, hmem, hlen⟩

theorem statsGood_reset (g : OccupancyGrid) : statsGood g.reset := by
  refine ⟨?_, ?_, ?_, ?_, ?_⟩
  · simp [OccupancyGrid.reset, cnt_replicate_self]
  · rw [show g.reset.data = List.replicate (g.width * g.height) 0 from rfl,
      cnt_replicate_ne (g.width * g.height) 1 (by decide)]
    rfl
  · rw [show g.reset.data = List.replicate (g.width * g.height) 0 from rfl,
      cnt_replicate_ne (g.width * g.height) (-1) (by decide)]
    rfl
  · intro v hv
    simp [OccupancyGrid.reset] at hv
    simp [hv.2]
  · simp [OccupancyGrid.reset]

theorem raytraceAux_dims (x1 y1 dx dy sx sy : ℤ) (fuel : ℕ) :
    ∀ (g : OccupancyGrid) (x0 y0 err : ℤ),
      (OccupancyGrid.raytraceAux x1 y1 dx dy sx sy fuel g x0 y0 err).width = g.width ∧
      (OccupancyGrid.raytraceAux x1 y1 dx dy sx sy fuel g x0 y0 err).height = g.height := by
  induction fuel with
  | zero => intro g x0 y0 err; exact ⟨rfl, rfl⟩
  | succ n ih =>
    intro g x0 y0 err
    simp only [OccupancyGrid.raytraceAux]
    have hg1 :
        (if g.isInMap x0 y0 ∧ g.getOccupancy x0 y0 ≠ -1 then
          g.setOccupancy x0 y0 1 else g).width = g.width ∧
        (if g.isInMap x0 y0 ∧ g.getOccupancy x0 y0 ≠ -1 then
          g.setOccupancy x0 y0 1 else g).height = g.height := by
      split_ifs with hc
      · exact ⟨(setOccupancy_frame g x0 y0 1).1, (setOccupancy_frame g x0 y0 1).2.1⟩
      · exact ⟨rfl, rfl⟩
    by_cases hend : x0 = x1 ∧ y0 = y1
    · rw [if_pos hend]
      exact hg1
    · rw [if_neg hend]
      obtain ⟨hw, hh⟩ := ih (if g.isInMap x0 y0 ∧ g.getOccupancy x0 y0 ≠ -1 then
        g.setOccupancy x0 y0 1 else g) _ _ _
      exact ⟨hw.trans hg1.1, hh.trans hg1.2⟩

theorem inflateObstacles_dims (g : OccupancyGrid) :
    g.inflateObstacles.width = g.width ∧ g.inflateObstacles.height = g.height := by
  unfold OccupancyGrid.inflateObstacles
  refine foldl_preserve (fun x => x.width = g.width ∧ x.height = g.height)
    OccupancyGrid.inflateObstaclesRow (List.range g.height)
    { g with inflatedData := g.data } ?_ ⟨rfl, rfl⟩
  intro x gyi hx
  unfold OccupancyGrid.inflateObstaclesRow
  refine foldl_preserve (fun x2 : OccupancyGrid => x2.width = g.width ∧ x2.height = g.height)
    _ _ x ?_ hx
  · intro x2 gxi hx2
    unfold OccupancyGrid.inflateObstaclesStep
    split_ifs
    · obtain ⟨hw, hh, _⟩ := inflateCell_frame x2 _ _
      exact ⟨hw.trans hx2.1, hh.trans hx2.2⟩
    · exact hx2

/-- All grid operations preserve the grid dimensions. -/
theorem applyOp_dims (g : OccupancyGrid) (op : GridOp) :
    (applyOp g op).width = g.width ∧ (applyOp g op).height = g.height := by
  cases op with
  | set gx gy v =>
    exact ⟨(setOccupancy_frame g gx gy v).1, (setOccupancy_frame g gx gy v).2.1⟩
  | ray x0 y0 x1 y1 => exact raytraceAux_dims _ _ _ _ _ _ _ g _ _ _
  | inflate => exact inflateObstacles_dims g
  | resetG => exact ⟨rfl, rfl⟩

theorem statsGood_applyOp (g : OccupancyGrid) (op : GridOp) (hwf : wfOp op)
    (hg : statsGood g) : statsGood (applyOp g op) := by
  cases op with
  | set gx gy v => exact statsGood_setOccupancy g gx gy v (by exact hwf) hg
  | ray x0 y0 x1 y1 => exact statsGood_raytrace g x0 y0 x1 y1 hg
  | inflate => exact statsGood_inflateObstacles g hg
  | resetG => exact statsGood_reset g

theorem cnt_sum (l : List ℤ) (hmem : ∀ v ∈ l, v = -1 ∨ v = 0 ∨ v = 1) :
    cnt 0 l + cnt 1 l + cnt (-1) l = l.length := by
  induction l with
  | nil => rfl
  | cons x xs ih =>
    have hx := hmem x (List.mem_cons_self x xs)
    have hxs : ∀ v ∈ xs, v = -1 ∨ v = 0 ∨ v = 1 := fun v hv =>
      hmem v (List.mem_cons_of_mem x hv)
    have := ih hxs
    rcases hx with h | h | h <;>
      subst h <;>
      simp only [cnt, List.countP_cons, beq_iff_eq, List.length_cons] at * <;>
      norm_num <;> omega

/-- C6: after any sequence of grid operations (setOccupancy with value in
the set of -1, 0, +1; raytrace; inflateObstacles; reset) on a fresh grid,
unknown + free + occupied = width * height and each stats field equals the
number of raw cells holding the corresponding occupancy value. -/
theorem C6_stats_invariant (w h : ℕ) (r : ℚ) (ops : List GridOp)
    (hwf : ∀ op ∈ ops, wfOp op) :
    (applyOps (OccupancyGrid.mk2 w h r) ops).statsUnknown +
        (applyOps (OccupancyGrid.mk2 w h r) ops).statsFree +
        (applyOps (OccupancyGrid.mk2 w h r) ops).statsOccupied = (w : ℤ) * h ∧
    (applyOps (OccupancyGrid.mk2 w h r) ops).statsUnknown =
        cnt 0 (applyOps (OccupancyGrid.mk2 w h r) ops).data ∧
    (applyOps (OccupancyGrid.mk2 w h r) ops).statsFree =
        cnt 1 (applyOps (OccupancyGrid.mk2 w h r) ops).data ∧
    (applyOps (OccupancyGrid.mk2 w h r) ops).statsOccupied =
        cnt (-1) (applyOps (OccupancyGrid.mk2 w h r) ops).data := by
  have main : statsGood (applyOps (OccupancyGrid.mk2 w h r) ops) ∧
      (applyOps (OccupancyGrid.mk2 w h r) ops).width = w ∧
      (applyOps (OccupancyGrid.mk2 w h r) ops).height = h := by
    unfold applyOps
    apply foldl_preserve_mem (fun x => statsGood x ∧ x.width = w ∧ x.height = h)
    · intro x op hop hx
      obtain ⟨hsg, hxw, hxh⟩ := hx
      obtain ⟨hw2, hh2⟩ := applyOp_dims x op
      exact ⟨statsGood_applyOp x op (hwf op hop) hsg, hw2.trans hxw, hh2.trans hxh⟩
    · exact ⟨statsGood_mk2 w h r, rfl, rfl⟩
  obtain ⟨⟨h0, h1, h2, hmem, hlen⟩, hw, hh⟩ := main
  have hsum := cnt_sum _ hmem
  refine ⟨?_, h0, h1, h2⟩
  rw [h0, h1, h2]
  rw [hw, hh] at hlen
  push_cast
  omega

/-- Witness for C6 on a concrete operation sequence. -/
theorem C6_witness :
    (∀ op ∈ [GridOp.set 1 1 (-1), GridOp.ray 0 0 2 2, GridOp.inflate,
        GridOp.set 1 1 0, GridOp.set 0 2 1], wfOp op) ∧
    ((applyOps (OccupancyGrid.mk2 3 3 1) [GridOp.set 1 1 (-1), GridOp.ray 0 0 2 2,
        GridOp.inflate, GridOp.set 1 1 0, GridOp.set 0 2 1]).statsUnknown +
      (applyOps (OccupancyGrid.mk2 3 3 1) [GridOp.set 1 1 (-1), GridOp.ray 0 0 2 2,
        GridOp.inflate, GridOp.set 1 1 0, GridOp.set 0 2 1]).statsFree +
      (applyOps (OccupancyGrid.mk2 3 3 1) [GridOp.set 1 1 (-1), GridOp.ray 0 0 2 2,
        GridOp.inflate, GridOp.set 1 1 0, GridOp.set 0 2 1]).statsOccupied = (3 : ℤ) * 3 ∧
      (applyOps (OccupancyGrid.mk2 3 3 1) [GridOp.set 1 1 (-1), GridOp.ray 0 0 2 2,
          GridOp.inflate, GridOp.set 1 1 0, GridOp.set 0 2 1]).statsUnknown =
        cnt 0 (applyOps (OccupancyGrid.mk2 3 3 1) [GridOp.set 1 1 (-1), GridOp.ray 0 0 2 2,
          GridOp.inflate, GridOp.set 1 1 0, GridOp.set 0 2 1]).data ∧
      (applyOps (OccupancyGrid.mk2 3 3 1) [GridOp.set 1 1 (-1), GridOp.ray 0 0 2 2,
          GridOp.inflate, GridOp.set 1 1 0, GridOp.set 0 2 1]).statsFree =
        cnt 1 (applyOps (OccupancyGrid.mk2 3 3 1) [GridOp.set 1 1 (-1), GridOp.ray 0 0 2 2,
          GridOp.inflate, GridOp.set 1 1 0, GridOp.set 0 2 1]).data ∧
      (applyOps (OccupancyGrid.mk2 3 3 1) [GridOp.set 1 1 (-1), GridOp.ray 0 0 2 2,
          GridOp.inflate, GridOp.set 1 1 0, GridOp.set 0 2 1]).statsOccupied =
        cnt (-1) (applyOps (OccupancyGrid.mk2 3 3 1) [GridOp.set 1 1 (-1), GridOp.ray 0 0 2 2,
          GridOp.inflate, GridOp.set 1 1 0, GridOp.set 0 2 1]).data) :=
  ⟨by decide, C6_stats_invariant 3 3 1 _ (by decide)⟩

/-! ## Claim C5: inflation postcondition -/

theorem listSet_oob (l : List ℤ) (i : ℕ) (v : ℤ) (h : l.length ≤ i) :
    listSet l i v = l := by
  induction l generalizing i with
  | nil => rfl
  | cons x xs ih =>
    cases i with
    | zero => simp at h
    | succ n => simp only [listSet, List.cons.injEq, true_and]; exact ih n (by simpa using h)

/-- The row-major index of an in-map cell is within a width * height array. -/
theorem index_lt (W H : ℕ) (gx gy : ℤ) (hx0 : 0 ≤ gx) (hx1 : gx < W)
    (hy0 : 0 ≤ gy) (hy1 : gy < H) : (gy * W + gx).toNat < W * H := by
  have hlt : gy * (W : ℤ) + gx < (W : ℤ) * H := by
    have h7 : (gy + 1 : ℤ) * W ≤ (H : ℤ) * W := by
      apply mul_le_mul_of_nonneg_right _ (by positivity)
      omega
    nlinarith
  have hnn : 0 ≤ gy * (W : ℤ) := mul_nonneg hy0 (by positivity)
  omega

/-- Each inner inflation step either leaves a cell of the inflated array
unchanged or sets it to -1. -/
theorem inflateCellStep_getD_or (radius cx cy dy : ℤ) (x : OccupancyGrid)
    (dxi : ℕ) (i : ℕ) :
    (OccupancyGrid.inflateCellStep radius cx cy dy x dxi).inflatedData.getD i 0 = -1 ∨
    (OccupancyGrid.inflateCellStep radius cx cy dy x dxi).inflatedData.getD i 0 =
      x.inflatedData.getD i 0 := by
  unfold OccupancyGrid.inflateCellStep
  dsimp only
  split_ifs with h1 h2
  · by_cases hlt :
        ((cy + dy) * (x.width : ℤ) + (cx + ((dxi : ℤ) - radius))).toNat <
          x.inflatedData.length
    · by_cases hj :
        ((cy + dy) * (x.width : ℤ) + (cx + ((dxi : ℤ) - radius))).toNat = i
      · left
        subst hj
        exact listSet_getD_eq _ _ _ hlt
      · right
        exact listSet_getD_ne _ _ _ _ hj
    · right
      rw [listSet_oob _ _ _ (le_of_not_lt hlt)]
  · right; rfl
  · right; rfl

theorem inflateCellStep_mono (radius cx cy dy : ℤ) (x : OccupancyGrid) (dxi i : ℕ)
    (h : x.inflatedData.getD i 0 = -1) :
    (OccupancyGrid.inflateCellStep radius cx cy dy x dxi).inflatedData.getD i 0 = -1 := by
  rcases inflateCellStep_getD_or radius cx cy dy x dxi i with h' | h'
  · exact h'
  · rw [h', h]

theorem inflateCellRow_mono (radius cx cy : ℤ) (x : OccupancyGrid) (dyi i : ℕ)
    (h : x.inflatedData.getD i 0 = -1) :
    (OccupancyGrid.inflateCellRow radius cx cy x dyi).inflatedData.getD i 0 = -1 := by
  unfold OccupancyGrid.inflateCellRow
  refine foldl_preserve (fun a : OccupancyGrid => a.inflatedData.getD i 0 = -1)
    _ _ x ?_ h
  intro a b ha
  exact inflateCellStep_mono _ _ _ _ a b i ha

theorem inflateCell_mono (x : OccupancyGrid) (cx cy : ℤ) (i : ℕ)
    (h : x.inflatedData.getD i 0 = -1) :
    (x.inflateCell cx cy).inflatedData.getD i 0 = -1 := by
  unfold OccupancyGrid.inflateCell
  refine foldl_preserve (fun a : OccupancyGrid => a.inflatedData.getD i 0 = -1)
    _ _ x ?_ h
  intro a b ha
  exact inflateCellRow_mono _ _ _ a b i ha

theorem isInMap_frame {g a : OccupancyGrid} (hw : a.width = g.width)
    (hh : a.height = g.height) (gx gy : ℤ) : a.isInMap gx gy = g.isInMap gx gy := by
  unfold OccupancyGrid.isInMap
  rw [hw, hh]

theorem abs_le_of_sq_le (a r : ℤ) (hr : 0 ≤ r) (h : a * a ≤ r * r) : |a| ≤ r := by
  by_contra hc
  push_neg at hc
  nlinarith [abs_mul_abs_self a, abs_nonneg a]

/-- Running the inner inflation step at the offset matching a target cell
within the inflation disk writes -1 into that cell. -/
theorem inflateCellStep_establish (radius cx cy dy : ℤ) (x : OccupancyGrid) (dxi : ℕ)
    (hin : x.isInMap (cx + ((dxi : ℤ) - radius)) (cy + dy) = true)
    (hcond : ((dxi : ℤ) - radius) * ((dxi : ℤ) - radius) + dy * dy ≤ radius * radius)
    (hlen : x.inflatedData.length = x.width * x.height) :
    (OccupancyGrid.inflateCellStep radius cx cy dy x dxi).inflatedData.getD
      ((cy + dy) * (x.width : ℤ) + (cx + ((dxi : ℤ) - radius))).toNat 0 = -1 := by
  unfold OccupancyGrid.inflateCellStep
  dsimp only
  rw [if_pos hin, if_pos hcond]
  apply listSet_getD_eq
  rw [hlen]
  simp only [OccupancyGrid.isInMap, decide_eq_true_eq] at hin
  exact index_lt x.width x.height _ _ hin.1 hin.2.1 hin.2.2.1 hin.2.2.2

/-- Running one row of the inflation loop at the row offset matching the
target cell writes -1 into it, from any frame-equivalent accumulator. -/
theorem inflateCellRow_establish (g : OccupancyGrid) (cx cy gx gy : ℤ)
    (x : OccupancyGrid) (dyi : ℕ)
    (hframe : gridFrame g x)
    (hlen : g.inflatedData.length = g.width * g.height)
    (hin : g.isInMap gx gy = true)
    (hdy : (dyi : ℤ) - g.inflationRadius = gy - cy)
    (hdx : |gx - cx| ≤ g.inflationRadius)
    (hcond : (gx - cx) * (gx - cx) + (gy - cy) * (gy - cy) ≤
      g.inflationRadius * g.inflationRadius) :
    (OccupancyGrid.inflateCellRow g.inflationRadius cx cy x dyi).inflatedData.getD
      (gy * (g.width : ℤ) + gx).toNat 0 = -1 := by
  obtain ⟨hw, hh, h3, h4, h5, h6, h7, h8, hlx⟩ := hframe
  unfold OccupancyGrid.inflateCellRow
  have hr : 0 ≤ g.inflationRadius := le_trans (abs_nonneg _) hdx
  refine foldl_mem_establish
    (fun a : OccupancyGrid => a.inflatedData.getD (gy * (g.width : ℤ) + gx).toNat 0 = -1)
    (gridFrame g) _ _ ((gx - cx + g.inflationRadius).toNat) ?_ ?_ ?_ ?_ x ?_
  · rw [List.mem_range]
    rw [abs_le] at hdx
    omega
  · intro a b ha
    exact gridFrame_trans ha (inflateCellStep_frame _ _ _ _ a b)
  · intro a ha
    obtain ⟨haw, hah, _, _, _, _, _, _, hal⟩ := ha
    have hk : ((gx - cx + g.inflationRadius).toNat : ℤ) = gx - cx + g.inflationRadius := by
      rw [abs_le] at hdx
      omega
    have hgx : cx + (((gx - cx + g.inflationRadius).toNat : ℤ) - g.inflationRadius) = gx := by
      rw [hk]; ring
    have hgy : cy + ((dyi : ℤ) - g.inflationRadius) = gy := by
      rw [hdy]; ring
    have hin2 : a.isInMap
        (cx + (((gx - cx + g.inflationRadius).toNat : ℤ) - g.inflationRadius))
        (cy + ((dyi : ℤ) - g.inflationRadius)) = true := by
      rw [isInMap_frame haw hah, hgx, hgy]
      exact hin
    have hcond2 : (((gx - cx + g.inflationRadius).toNat : ℤ) - g.inflationRadius) *
        (((gx - cx + g.inflationRadius).toNat : ℤ) - g.inflationRadius) +
        ((dyi : ℤ) - g.inflationRadius) * ((dyi : ℤ) - g.inflationRadius) ≤
        g.inflationRadius * g.inflationRadius := by
      rw [hk, hdy]
      have he : gx - cx + g.inflationRadius - g.inflationRadius = gx - cx := by ring
      rw [he]
      exact hcond
    have hlen2 : a.inflatedData.length = a.width * a.height := by
      rw [hal, haw, hah]
      exact hlen
    have := inflateCellStep_establish g.inflationRadius cx cy
      ((dyi : ℤ) - g.inflationRadius) a ((gx - cx + g.inflationRadius).toNat)
      hin2 hcond2 hlen2
    rw [hgy, haw, hgx] at this
    exact this
  · intro a b ha
    exact inflateCellStep_mono _ _ _ _ a b _ ha
  · exact ⟨hw, hh, h3, h4, h5, h6, h7, h8, hlx⟩

/-- inflateCell covers the whole inflation disk of its centre cell. -/
theorem inflateCell_covers (g x : OccupancyGrid) (cx cy gx gy : ℤ)
    (hframe : gridFrame g x)
    (hlen : g.inflatedData.length = g.width * g.height)
    (hin : g.isInMap gx gy = true)
    (hr : 0 ≤ g.inflationRadius)
    (hcond : (gx - cx) * (gx - cx) + (gy - cy) * (gy - cy) ≤
      g.inflationRadius * g.inflationRadius) :
    (x.inflateCell cx cy).inflatedData.getD (gy * (g.width : ℤ) + gx).toNat 0 = -1 := by
  have hdx : |gx - cx| ≤ g.inflationRadius := by
    apply abs_le_of_sq_le _ _ hr
    nlinarith [mul_self_nonneg (gy - cy)]
  have hdy : |gy - cy| ≤ g.inflationRadius := by
    apply abs_le_of_sq_le _ _ hr
    nlinarith [mul_self_nonneg (gx - cx)]
  have hradx : x.inflationRadius = g.inflationRadius := hframe.2.2.2.2.1
  unfold OccupancyGrid.inflateCell
  rw [hradx]
  refine foldl_mem_establish
    (fun a : OccupancyGrid => a.inflatedData.getD (gy * (g.width : ℤ) + gx).toNat 0 = -1)
    (gridFrame g) _ _ ((gy - cy + g.inflationRadius).toNat) ?_ ?_ ?_ ?_ x ?_
  · rw [List.mem_range]
    rw [abs_le] at hdy
    omega
  · intro a b ha
    exact gridFrame_trans ha (inflateCellRow_frame _ _ _ a b)
  · intro a ha
    apply inflateCellRow_establish g cx cy gx gy a _ ha hlen hin _ hdx hcond
    rw [abs_le] at hdy
    omega
  · intro a b ha
    exact inflateCellRow_mono _ _ _ a b _ ha
  · exact hframe

theorem inflateObstaclesStep_frame (g : OccupancyGrid) (gy : ℤ) (x : OccupancyGrid)
    (gxi : ℕ) (hx : gridFrame g x) :
    gridFrame g (OccupancyGrid.inflateObstaclesStep gy x gxi) := by
  unfold OccupancyGrid.inflateObstaclesStep
  split_ifs
  · exact gridFrame_trans hx (inflateCell_frame x _ _)
  · exact hx

theorem inflateObstaclesStep_mono (gy : ℤ) (x : OccupancyGrid) (gxi i : ℕ)
    (h : x.inflatedData.getD i 0 = -1) :
    (OccupancyGrid.inflateObstaclesStep gy x gxi).inflatedData.getD i 0 = -1 := by
  unfold OccupancyGrid.inflateObstaclesStep
  split_ifs
  · exact inflateCell_mono x _ _ i h
  · exact h

theorem inflateObstaclesRow_frame (g : OccupancyGrid) (x : OccupancyGrid) (gyi : ℕ)
    (hx : gridFrame g x) : gridFrame g (OccupancyGrid.inflateObstaclesRow x gyi) := by
  unfold OccupancyGrid.inflateObstaclesRow
  refine foldl_preserve (gridFrame g) _ _ x ?_ hx
  intro a b ha
  exact inflateObstaclesStep_frame g _ a b ha

theorem inflateObstaclesRow_mono (x : OccupancyGrid) (gyi i : ℕ)
    (h : x.inflatedData.getD i 0 = -1) :
    (OccupancyGrid.inflateObstaclesRow x gyi).inflatedData.getD i 0 = -1 := by
  unfold OccupancyGrid.inflateObstaclesRow
  refine foldl_preserve (fun a : OccupancyGrid => a.inflatedData.getD i 0 = -1)
    _ _ x ?_ h
  intro a b ha
  exact inflateObstaclesStep_mono _ a b i ha

/-- C5: after inflateObstacles, every in-map cell whose Euclidean distance
(in cell units) to some raw-occupied cell is at most inflationRadius
(which the constructor sets to the ceiling of robotRadius / resolution)
has inflated value -1, and every raw-occupied cell has inflated value -1
(raw-occupied cells are never downgraded). -/
theorem C5_inflation_postcondition (g : OccupancyGrid)
    (hdlen : g.data.length = g.width * g.height)
    (hrad : g.inflationRadius = ⌈g.robotRadius / g.resolution⌉) :
    (∀ cx cy gx gy : ℤ,
      g.isInMap cx cy = true → g.isInMap gx gy = true →
      g.getOccupancy cx cy = -1 →
      Real.sqrt (((gx - cx : ℤ) : ℝ) ^ 2 + ((gy - cy : ℤ) : ℝ) ^ 2) ≤
        (g.inflationRadius : ℝ) →
      g.inflateObstacles.getInflatedOccupancy gx gy = -1) ∧
    (∀ cx cy : ℤ, g.isInMap cx cy = true → g.getOccupancy cx cy = -1 →
      g.inflateObstacles.getInflatedOccupancy cx cy = -1) := by
  have hdimW := (inflateObstacles_dims g).1
  have hdimH := (inflateObstacles_dims g).2
  have hout : ∀ gx gy : ℤ, g.isInMap gx gy = true →
      (g.inflateObstacles.inflatedData.getD (gy * (g.width : ℤ) + gx).toNat 0 = -1) →
      g.inflateObstacles.getInflatedOccupancy gx gy = -1 := by
    intro gx gy hin hd
    unfold OccupancyGrid.getInflatedOccupancy
    rw [isInMap_frame hdimW hdimH, hin, if_pos rfl, hdimW]
    exact hd
  constructor
  · intro cx cy gx gy hinc hing hocc hdist
    -- translate the real distance bound to the integer squared bound
    have hr : (0 : ℝ) ≤ (g.inflationRadius : ℝ) :=
      le_trans (Real.sqrt_nonneg _) hdist
    have hrz : 0 ≤ g.inflationRadius := by exact_mod_cast hr
    have hs : (0 : ℝ) ≤ ((gx - cx : ℤ) : ℝ) ^ 2 + ((gy - cy : ℤ) : ℝ) ^ 2 := by positivity
    have hsq : ((gx - cx : ℤ) : ℝ) ^ 2 + ((gy - cy : ℤ) : ℝ) ^ 2 ≤
        ((g.inflationRadius : ℤ) : ℝ) ^ 2 := by
      have h1 := Real.sq_sqrt hs
      nlinarith [Real.sqrt_nonneg (((gx - cx : ℤ) : ℝ) ^ 2 + ((gy - cy : ℤ) : ℝ) ^ 2), hdist]
    have hcond : (gx - cx) * (gx - cx) + (gy - cy) * (gy - cy) ≤
        g.inflationRadius * g.inflationRadius := by
      push_cast at hsq
      exact_mod_cast (by push_cast; nlinarith [hsq] :
        (((gx - cx) * (gx - cx) + (gy - cy) * (gy - cy) : ℤ) : ℝ) ≤
          ((g.inflationRadius * g.inflationRadius : ℤ) : ℝ))
    apply hout gx gy hing
    -- the occupied cell's raw value, as stored in the data array
    have hoccd : g.data.getD (cy * (g.width : ℤ) + cx).toNat 0 = -1 := by
      unfold OccupancyGrid.getOccupancy at hocc
      rw [hinc, if_pos rfl] at hocc
      exact hocc
    have hboundsc : 0 ≤ cx ∧ cx < (g.width : ℤ) ∧ 0 ≤ cy ∧ cy < (g.height : ℤ) := by
      simpa only [OccupancyGrid.isInMap, decide_eq_true_eq] using hinc
    unfold OccupancyGrid.inflateObstacles
    refine foldl_mem_establish
      (fun a : OccupancyGrid =>
        a.inflatedData.getD (gy * (g.width : ℤ) + gx).toNat 0 = -1)
      (gridFrame { g with inflatedData := g.data }) _ _ cy.toNat ?_ ?_ ?_ ?_ _ ?_
    · rw [List.mem_range]
      omega
    · intro a b ha
      exact inflateObstaclesRow_frame _ a b ha
    · intro a ha
      -- the row containing the occupied cell: establish via the inner scan
      obtain ⟨haw, hah, h3a, had, h5a, h6a, h7a, h8a, hal⟩ := ha
      unfold OccupancyGrid.inflateObstaclesRow
      have hcyz : ((cy.toNat : ℕ) : ℤ) = cy := by omega
      refine foldl_mem_establish
        (fun b : OccupancyGrid =>
          b.inflatedData.getD (gy * (g.width : ℤ) + gx).toNat 0 = -1)
        (gridFrame { g with inflatedData := g.data }) _ _ cx.toNat ?_ ?_ ?_ ?_ a
        ⟨haw, hah, h3a, had, h5a, h6a, h7a, h8a, hal⟩
      · rw [List.mem_range, haw]
        show cx.toNat < g.width
        omega
      · intro b c hb
        exact inflateObstaclesStep_frame _ _ b c hb
      · intro b hb
        obtain ⟨hbw, hbh, h3b, hbd, h5b, h6b, h7b, h8b, hbl⟩ := hb
        unfold OccupancyGrid.inflateObstaclesStep
        have hcxz : ((cx.toNat : ℕ) : ℤ) = cx := by omega
        have hcondb : b.data.getD
            (((cy.toNat : ℕ) : ℤ) * (b.width : ℤ) + ((cx.toNat : ℕ) : ℤ)).toNat 0 = -1 := by
          rw [hcyz, hcxz, hbw, hbd]
          exact hoccd
        rw [if_pos hcondb]
        have := inflateCell_covers { g with inflatedData := g.data } b
          ((cx.toNat : ℕ) : ℤ) ((cy.toNat : ℕ) : ℤ) gx gy
          ⟨hbw, hbh, h3b, hbd, h5b, h6b, h7b, h8b, hbl⟩
          (by simpa using hdlen) hing hrz
          (by rw [hcxz, hcyz]; exact hcond)
        simpa using this
      · intro b c hb
        exact inflateObstaclesStep_mono _ b c _ hb
    · intro a b ha
      exact inflateObstaclesRow_mono a b _ ha
    · exact gridFrame_rfl _
  · intro cx cy hinc hocc
    apply hout cx cy hinc
    have hoccd : g.data.getD (cy * (g.width : ℤ) + cx).toNat 0 = -1 := by
      unfold OccupancyGrid.getOccupancy at hocc
      rw [hinc, if_pos rfl] at hocc
      exact hocc
    unfold OccupancyGrid.inflateObstacles
    refine foldl_preserve
      (fun a : OccupancyGrid =>
        a.inflatedData.getD (cy * (g.width : ℤ) + cx).toNat 0 = -1)
      _ _ { g with inflatedData := g.data } ?_ ?_
    · intro a b ha
      exact inflateObstaclesRow_mono a b _ ha
    · simpa using hoccd

/-- Witness for C5 on a concrete 3 x 3 grid with one occupied cell. -/
theorem C5_witness :
    gC5.data.length = gC5.width * gC5.height ∧
    gC5.inflationRadius = ⌈gC5.robotRadius / gC5.resolution⌉ ∧
    gC5.isInMap 2 1 = true ∧ gC5.isInMap 1 1 = true ∧ gC5.getOccupancy 1 1 = -1 ∧
    Real.sqrt (((2 - 1 : ℤ) : ℝ) ^ 2 + ((1 - 1 : ℤ) : ℝ) ^ 2) ≤
      (gC5.inflationRadius : ℝ) ∧
    gC5.inflateObstacles.getInflatedOccupancy 2 1 = -1 ∧
    gC5.inflateObstacles.getInflatedOccupancy 1 1 = -1 := by
  have hsqrt : Real.sqrt (((2 - 1 : ℤ) : ℝ) ^ 2 + ((1 - 1 : ℤ) : ℝ) ^ 2) ≤
      (gC5.inflationRadius : ℝ) := by
    show Real.sqrt (((2 - 1 : ℤ) : ℝ) ^ 2 + ((1 - 1 : ℤ) : ℝ) ^ 2) ≤ ((1 : ℤ) : ℝ)
    norm_num [Real.sqrt_one]
  refine ⟨rfl, by
      show (1 : ℤ) = ⌈(0.2 : ℚ) / 1⌉
      rw [eq_comm, Int.ceil_eq_iff]
      norm_num, by decide, by decide, by rfl, hsqrt, ?_, ?_⟩
  · exact (C5_inflation_postcondition gC5 rfl (by
      show (1 : ℤ) = ⌈(0.2 : ℚ) / 1⌉
      rw [eq_comm, Int.ceil_eq_iff]
      norm_num)).1 1 1 2 1
      (by decide) (by decide) rfl hsqrt
  · exact (C5_inflation_postcondition gC5 rfl (by
      show (1 : ℤ) = ⌈(0.2 : ℚ) / 1⌉
      rw [eq_comm, Int.ceil_eq_iff]
      norm_num)).2 1 1 (by decide) rfl

/-! ## Claim C8: waypoint synthesis -/

theorem ratSqrtFloor_eq (q : ℚ) (hq : 0 ≤ q) :
    (ratSqrtFloor q : ℤ) = ⌊Real.sqrt ((q : ℝ))⌋ := by
  unfold ratSqrtFloor
  have hb : 0 < q.den := q.den_pos
  have hnum : 0 ≤ q.num := Rat.num_nonneg.mpr hq
  set a := q.num.toNat with ha
  set b := q.den with hbdef
  have hqz : q.num = (a : ℤ) := by omega
  have hqr : (q : ℝ) = (a : ℝ) / (b : ℝ) := by
    rw [Rat.cast_def, hqz]
    push_cast
    ring
  have hqnn : (0 : ℝ) ≤ (q : ℝ) := by exact_mod_cast hq
  set m := Nat.sqrt (a * b) / b with hm
  have hsq : Real.sqrt ((q : ℝ)) ^ 2 = (q : ℝ) := Real.sq_sqrt hqnn
  have hsnn : 0 ≤ Real.sqrt ((q : ℝ)) := Real.sqrt_nonneg _
  have hbr : (0 : ℝ) < (b : ℝ) := by exact_mod_cast hb
  have hlow : ((m : ℝ)) ≤ Real.sqrt ((q : ℝ)) := by
    have h1 : m * b ≤ Nat.sqrt (a * b) := (Nat.le_div_iff_mul_le hb).mp (le_refl m)
    have h2 : Nat.sqrt (a * b) * Nat.sqrt (a * b) ≤ a * b := Nat.sqrt_le (a * b)
    have h3 : m * m * b ≤ a := by
      have h4 : (m * m * b) * b ≤ a * b := by
        calc (m * m * b) * b = (m * b) * (m * b) := by ring
          _ ≤ Nat.sqrt (a * b) * Nat.sqrt (a * b) := Nat.mul_le_mul h1 h1
          _ ≤ a * b := h2
      exact Nat.le_of_mul_le_mul_right h4 hb
    have h5 : ((m : ℝ)) ^ 2 ≤ (q : ℝ) := by
      rw [hqr, le_div_iff hbr]
      have h6 : ((m * m * b : ℕ) : ℝ) ≤ ((a : ℕ) : ℝ) := by exact_mod_cast h3
      push_cast at h6
      nlinarith [h6]
    nlinarith [h5, hsq, hsnn]
  have hup : Real.sqrt ((q : ℝ)) < (m : ℝ) + 1 := by
    have h5 : a < (m + 1) * (m + 1) * b := by
      by_contra hcon
      push_neg at hcon
      have h6 : ((m + 1) * b) * ((m + 1) * b) ≤ a * b := by
        calc ((m + 1) * b) * ((m + 1) * b) = ((m + 1) * (m + 1) * b) * b := by ring
          _ ≤ a * b := Nat.mul_le_mul_right b hcon
      have h7 : (m + 1) * b ≤ Nat.sqrt (a * b) := Nat.le_sqrt.mpr h6
      have h8 : m + 1 ≤ m := by
        have h9 := (Nat.le_div_iff_mul_le hb).mpr h7
        omega
      omega
    have h9 : (q : ℝ) < ((m : ℝ) + 1) ^ 2 := by
      rw [hqr, div_lt_iff hbr]
      have h10 : ((a : ℕ) : ℝ) < (((m + 1) * (m + 1) * b : ℕ) : ℝ) := by exact_mod_cast h5
      push_cast at h10
      nlinarith [h10]
    nlinarith [h9, hsq, hsnn]
  rw [eq_comm, Int.floor_eq_iff]
  constructor
  · push_cast
    exact hlow
  · push_cast
    exact hup

theorem floorHalfHypot_eq (dx dy : ℚ) :
    (floorHalfHypot dx dy : ℤ) =
      ⌊Real.sqrt (((dx : ℝ)) ^ 2 + ((dy : ℝ)) ^ 2) / 2⌋ := by
  unfold floorHalfHypot
  have hnn : (0 : ℚ) ≤ (dx * dx + dy * dy) / 4 := by
    have := mul_self_nonneg dx
    have := mul_self_nonneg dy
    linarith
  rw [ratSqrtFloor_eq _ hnn]
  congr 1
  have hs : (0 : ℝ) ≤ (dx : ℝ) ^ 2 + (dy : ℝ) ^ 2 := by positivity
  have harg : (((dx * dx + dy * dy) / 4 : ℚ) : ℝ) =
      ((dx : ℝ) ^ 2 + (dy : ℝ) ^ 2) * (1 / 2) ^ 2 := by
    push_cast
    ring
  rw [harg, Real.sqrt_mul hs, Real.sqrt_sq (by norm_num : (0:ℝ) ≤ 1/2)]
  ring

theorem generateWaypoints_length (start goal : Pos3) :
    (generateWaypoints start goal).length =
      max 2 (floorHalfHypot (goal.x - start.x) (goal.y - start.y)) := by
  simp [generateWaypoints]

theorem generateWaypoints_getD (start goal : Pos3) (i : ℕ)
    (hi : i < (generateWaypoints start goal).length) :
    (generateWaypoints start goal).getD i ⟨0, 0, 0⟩ =
      { x := start.x + (goal.x - start.x) *
          (((i : ℚ) + 1) / ((generateWaypoints start goal).length : ℚ))
        y := start.y + (goal.y - start.y) *
          (((i : ℚ) + 1) / ((generateWaypoints start goal).length : ℚ))
        z := start.z + (goal.z - start.z) *
          (((i : ℚ) + 1) / ((generateWaypoints start goal).length : ℚ)) } := by
  rw [generateWaypoints_length] at hi ⊢
  unfold generateWaypoints
  rw [List.getD_eq_getElem?_getD, List.getElem?_map, List.getElem?_range hi]
  rfl

/-- C8: generateWaypoints returns exactly max(2, floor(d / 2)) waypoints
(d the horizontal Euclidean distance), linearly interpolating start to goal
at equal parameter steps with the last waypoint equal to the goal;
publishExplorationMission wraps them into a mission whose id begins with
"exploration_", with one task per waypoint, each with yaw = 0. -/
theorem C8_waypoint_synthesis (start goal : Pos3) (now : ℕ) :
    (((generateWaypoints start goal).length : ℤ) =
      max 2 ⌊Real.sqrt (((goal.x - start.x : ℚ) : ℝ) ^ 2 +
        ((goal.y - start.y : ℚ) : ℝ) ^ 2) / 2⌋) ∧
    (∀ i : ℕ, i < (generateWaypoints start goal).length →
      (generateWaypoints start goal).getD i ⟨0, 0, 0⟩ =
        { x := start.x + (goal.x - start.x) *
            (((i : ℚ) + 1) / ((generateWaypoints start goal).length : ℚ))
          y := start.y + (goal.y - start.y) *
            (((i : ℚ) + 1) / ((generateWaypoints start goal).length : ℚ))
          z := start.z + (goal.z - start.z) *
            (((i : ℚ) + 1) / ((generateWaypoints start goal).length : ℚ)) }) ∧
    ((generateWaypoints start goal).getD ((generateWaypoints start goal).length - 1)
        ⟨0, 0, 0⟩ = goal) ∧
    (2 ≤ (generateWaypoints start goal).length) ∧
    (∃ s, (publishExplorationMission start goal now).id = "exploration_" ++ s) ∧
    ((publishExplorationMission start goal now).tasks.map MissionTask.position =
      generateWaypoints start goal) ∧
    (∀ t ∈ (publishExplorationMission start goal now).tasks, t.yaw = 0) := by
  have h2 : 2 ≤ (generateWaypoints start goal).length := by
    rw [generateWaypoints_length]
    exact le_max_left _ _
  refine ⟨?_, fun i hi => generateWaypoints_getD start goal i hi, ?_, h2, ⟨toString now, rfl⟩, ?_, ?_⟩
  · rw [generateWaypoints_length]
    push_cast [Nat.cast_max]
    rw [floorHalfHypot_eq]
    push_cast
    rfl
  · have hi : (generateWaypoints start goal).length - 1 <
        (generateWaypoints start goal).length := by omega
    rw [generateWaypoints_getD start goal _ hi]
    have hne : ((generateWaypoints start goal).length : ℚ) ≠ 0 := by
      have hp : (0:ℕ) < (generateWaypoints start goal).length := by omega
      exact_mod_cast Nat.pos_iff_ne_zero.mp hp
    have hcast : (((generateWaypoints start goal).length - 1 : ℕ) : ℚ) + 1 =
        ((generateWaypoints start goal).length : ℚ) := by
      have h1 : 1 ≤ (generateWaypoints start goal).length := by omega
      push_cast [Nat.cast_sub h1]
      ring
    rw [hcast, div_self hne]
    obtain ⟨gx, gy, gz⟩ := goal
    simp
  · unfold publishExplorationMission
    rw [List.map_map]
    have hcomp : (MissionTask.position ∘ fun wp =>
        (⟨wp, 0, false, 0, 0⟩ : MissionTask)) = id := rfl
    rw [hcomp, List.map_id]
  · intro t ht
    simp only [publishExplorationMission, List.mem_map] at ht
    obtain ⟨wp, _, rfl⟩ := ht
    rfl

/-- Witness for C8 with start (0,0,0), goal (3,4,0): distance 5, two
waypoints, the second being the goal. -/
theorem C8_witness :
    (1 < (generateWaypoints ⟨0, 0, 0⟩ ⟨3, 4, 0⟩).length) ∧
    (generateWaypoints ⟨0, 0, 0⟩ ⟨3, 4, 0⟩).getD 1 ⟨0, 0, 0⟩ =
      { x := (0 : ℚ) + (3 - 0) * ((((1 : ℕ) : ℚ) + 1) /
          ((generateWaypoints ⟨0, 0, 0⟩ ⟨3, 4, 0⟩).length : ℚ))
        y := (0 : ℚ) + (4 - 0) * ((((1 : ℕ) : ℚ) + 1) /
          ((generateWaypoints ⟨0, 0, 0⟩ ⟨3, 4, 0⟩).length : ℚ))
        z := (0 : ℚ) + (0 - 0) * ((((1 : ℕ) : ℚ) + 1) /
          ((generateWaypoints ⟨0, 0, 0⟩ ⟨3, 4, 0⟩).length : ℚ)) } := by
  have hlen : (generateWaypoints ⟨0, 0, 0⟩ ⟨3, 4, 0⟩).length = 2 := by
    with_unfolding_all rfl
  exact ⟨by rw [hlen]; norm_num,
    (C8_waypoint_synthesis ⟨0, 0, 0⟩ ⟨3, 4, 0⟩ 0).2.1 1 (by rw [hlen]; norm_num)⟩

/-! ## Claim C10: setScoringWeights validation and partial writes -/

theorem presentInvalid_some (j : JSVal) :
    presentInvalid (some j) ↔ validWeight j = false := by
  constructor
  · rintro ⟨j2, hj2, hval⟩
    injection hj2 with h
    rw [h]
    exact hval
  · intro h
    exact ⟨j, rfl, h⟩

theorem presentInvalid_none : ¬ presentInvalid none := by
  rintro ⟨j, hj, _⟩
  cases hj

theorem validWeight_num_false (q : ℚ) :
    validWeight (JSVal.num q) = false ↔ (q < 0 ∨ 1 < q) := by
  simp only [validWeight, decide_eq_false_iff_not, not_and_or, not_le]

theorem applyWeightKey_eq_none_iff (cur : ScoringWeights) (v : Option JSVal)
    (st : ScoringWeights → ℚ → ScoringWeights) :
    applyWeightKey cur v st = none ↔ presentInvalid v := by
  cases v with
  | none =>
    simp only [applyWeightKey]
    constructor
    · intro h
      cases h
    · intro h
      exact absurd h presentInvalid_none
  | some j =>
    rw [presentInvalid_some]
    cases j with
    | num q =>
      simp only [applyWeightKey, validWeight_num_false]
      split_ifs with h
      · simp [h]
      · simp [h]
    | other =>
      simp [applyWeightKey, validWeight]

theorem applyWeightKey_valid (cur : ScoringWeights) (q : ℚ)
    (st : ScoringWeights → ℚ → ScoringWeights) (h0 : 0 ≤ q) (h1 : q ≤ 1) :
    applyWeightKey cur (some (JSVal.num q)) st = some (st cur q) := by
  simp only [applyWeightKey]
  rw [if_neg (by push_neg; exact ⟨h0, h1⟩)]

theorem applyWeightKey_inv {cur s' : ScoringWeights} {v : Option JSVal}
    {st : ScoringWeights → ℚ → ScoringWeights}
    (h : applyWeightKey cur v st = some s') :
    (v = none ∧ s' = cur) ∨
      (∃ q, v = some (JSVal.num q) ∧ 0 ≤ q ∧ q ≤ 1 ∧ s' = st cur q) := by
  cases v with
  | none =>
    left
    refine ⟨rfl, ?_⟩
    injection h with h2
    exact h2.symm
  | some j =>
    cases j with
    | num q =>
      right
      simp only [applyWeightKey] at h
      split_ifs at h with hc
      push_neg at hc
      refine ⟨q, rfl, hc.1, hc.2, ?_⟩
      injection h with h2
      exact h2.symm
    | other => simp [applyWeightKey] at h

theorem applyWeightKey_not_none {cur : ScoringWeights} {v : Option JSVal}
    {st : ScoringWeights → ℚ → ScoringWeights}
    (h : ¬ presentInvalid v) : ∃ s', applyWeightKey cur v st = some s' := by
  cases hv : applyWeightKey cur v st with
  | none => exact absurd ((applyWeightKey_eq_none_iff cur v st).mp hv) h
  | some s' => exact ⟨s', rfl⟩

theorem applyWeightKey_proj (f : ScoringWeights → ℚ) {cur s' : ScoringWeights}
    {v : Option JSVal} {st : ScoringWeights → ℚ → ScoringWeights}
    (h : applyWeightKey cur v st = some s') (hst : ∀ c q, f (st c q) = f c) :
    f s' = f cur := by
  rcases applyWeightKey_inv h with ⟨_, rfl⟩ | ⟨q, _, _, _, rfl⟩
  · rfl
  · exact hst cur q

/-- C10: setScoringWeights returns success = false iff one of the five
valid keys is present with a value that is not a number in [0, 1]; keys
outside the five are ignored; and every valid weight whose key precedes
the first invalid one (in the fixed key order) is written into the stored
configuration even when the call fails. -/
theorem C10_setScoringWeights (sw : ScoringWeights) (w : WeightsArg) :
    ((setScoringWeights sw w).1 = false ↔
      (presentInvalid w.infoGain ∨ presentInvalid w.distance ∨
        presentInvalid w.consistency ∨ presentInvalid w.density ∨
        presentInvalid w.history)) ∧
    (∀ e : List (String × JSVal),
      setScoringWeights sw { w with extras := e } = setScoringWeights sw w) ∧
    (∀ q : ℚ, w.infoGain = some (JSVal.num q) → 0 ≤ q → q ≤ 1 →
      (setScoringWeights sw w).2.infoGain = q) ∧
    (∀ q : ℚ, ¬ presentInvalid w.infoGain → w.distance = some (JSVal.num q) →
      0 ≤ q → q ≤ 1 → (setScoringWeights sw w).2.distance = q) ∧
    (∀ q : ℚ, ¬ presentInvalid w.infoGain → ¬ presentInvalid w.distance →
      w.consistency = some (JSVal.num q) →
      0 ≤ q → q ≤ 1 → (setScoringWeights sw w).2.consistency = q) ∧
    (∀ q : ℚ, ¬ presentInvalid w.infoGain → ¬ presentInvalid w.distance →
      ¬ presentInvalid w.consistency → w.density = some (JSVal.num q) →
      0 ≤ q → q ≤ 1 → (setScoringWeights sw w).2.density = q) ∧
    (∀ q : ℚ, ¬ presentInvalid w.infoGain → ¬ presentInvalid w.distance →
      ¬ presentInvalid w.consistency → ¬ presentInvalid w.density →
      w.history = some (JSVal.num q) →
      0 ≤ q → q ≤ 1 → (setScoringWeights sw w).2.history = q) := by
  refine ⟨?_, fun e => rfl, ?_, ?_, ?_, ?_, ?_⟩
  · constructor
    · intro hfail
      by_contra hno
      push_neg at hno
      obtain ⟨n1, n2, n3, n4, n5⟩ := hno
      obtain ⟨s1, h1⟩ := @applyWeightKey_not_none sw w.infoGain
        (fun s q => { s with infoGain := q }) n1
      obtain ⟨s2, h2⟩ := @applyWeightKey_not_none s1 w.distance
        (fun s q => { s with distance := q }) n2
      obtain ⟨s3, h3⟩ := @applyWeightKey_not_none s2 w.consistency
        (fun s q => { s with consistency := q }) n3
      obtain ⟨s4, h4⟩ := @applyWeightKey_not_none s3 w.density
        (fun s q => { s with density := q }) n4
      obtain ⟨s5, h5⟩ := @applyWeightKey_not_none s4 w.history
        (fun s q => { s with history := q }) n5
      simp only [setScoringWeights, h1, h2, h3, h4, h5] at hfail
      exact Bool.noConfusion hfail
    · intro hpi
      cases h1 : applyWeightKey sw w.infoGain (fun s q => { s with infoGain := q }) with
      | none => simp only [setScoringWeights, h1]
      | some s1 =>
        have n1 : ¬ presentInvalid w.infoGain := by
          intro hp
          have hn := (applyWeightKey_eq_none_iff sw w.infoGain
            (fun s q => { s with infoGain := q })).mpr hp
          rw [hn] at h1
          cases h1
        cases h2 : applyWeightKey s1 w.distance (fun s q => { s with distance := q }) with
        | none => simp only [setScoringWeights, h1, h2]
        | some s2 =>
          have n2 : ¬ presentInvalid w.distance := by
            intro hp
            have hn := (applyWeightKey_eq_none_iff s1 w.distance
              (fun s q => { s with distance := q })).mpr hp
            rw [hn] at h2
            cases h2
          cases h3 : applyWeightKey s2 w.consistency
              (fun s q => { s with consistency := q }) with
          | none => simp only [setScoringWeights, h1, h2, h3]
          | some s3 =>
            have n3 : ¬ presentInvalid w.consistency := by
              intro hp
              have hn := (applyWeightKey_eq_none_iff s2 w.consistency
                (fun s q => { s with consistency := q })).mpr hp
              rw [hn] at h3
              cases h3
            cases h4 : applyWeightKey s3 w.density (fun s q => { s with density := q }) with
            | none => simp only [setScoringWeights, h1, h2, h3, h4]
            | some s4 =>
              have n4 : ¬ presentInvalid w.density := by
                intro hp
                have hn := (applyWeightKey_eq_none_iff s3 w.density
                  (fun s q => { s with density := q })).mpr hp
                rw [hn] at h4
                cases h4
              cases h5 : applyWeightKey s4 w.history
                  (fun s q => { s with history := q }) with
              | none => simp only [setScoringWeights, h1, h2, h3, h4, h5]
              | some s5 =>
                have n5 : ¬ presentInvalid w.history := by
                  intro hp
                  have hn := (applyWeightKey_eq_none_iff s4 w.history
                    (fun s q => { s with history := q })).mpr hp
                  rw [hn] at h5
                  cases h5
                rcases hpi with hp | hp | hp | hp | hp
                · exact absurd hp n1
                · exact absurd hp n2
                · exact absurd hp n3
                · exact absurd hp n4
                · exact absurd hp n5
  · intro q hq hq0 hq1
    have h1 : applyWeightKey sw w.infoGain (fun s q => { s with infoGain := q }) =
        some { sw with infoGain := q } := by
      rw [hq]
      exact applyWeightKey_valid sw q _ hq0 hq1
    cases h2 : applyWeightKey { sw with infoGain := q } w.distance
        (fun s q => { s with distance := q }) with
    | none => simp only [setScoringWeights, h1, h2]
    | some s2 =>
      have e2 : s2.infoGain = q :=
        applyWeightKey_proj ScoringWeights.infoGain h2 (fun c q => rfl)
      cases h3 : applyWeightKey s2 w.consistency
          (fun s q => { s with consistency := q }) with
      | none => simp only [setScoringWeights, h1, h2, h3]; exact e2
      | some s3 =>
        have e3 : s3.infoGain = q :=
          (applyWeightKey_proj ScoringWeights.infoGain h3 (fun c q => rfl)).trans e2
        cases h4 : applyWeightKey s3 w.density (fun s q => { s with density := q }) with
        | none => simp only [setScoringWeights, h1, h2, h3, h4]; exact e3
        | some s4 =>
          have e4 : s4.infoGain = q :=
            (applyWeightKey_proj ScoringWeights.infoGain h4 (fun c q => rfl)).trans e3
          cases h5 : applyWeightKey s4 w.history (fun s q => { s with history := q }) with
          | none => simp only [setScoringWeights, h1, h2, h3, h4, h5]; exact e4
          | some s5 =>
            have e5 : s5.infoGain = q :=
              (applyWeightKey_proj ScoringWeights.infoGain h5 (fun c q => rfl)).trans e4
            simp only [setScoringWeights, h1, h2, h3, h4, h5]
            exact e5
  · intro q hn1 hq hq0 hq1
    obtain ⟨s1, h1⟩ := @applyWeightKey_not_none sw w.infoGain
      (fun s q => { s with infoGain := q }) hn1
    have h2 : applyWeightKey s1 w.distance (fun s q => { s with distance := q }) =
        some { s1 with distance := q } := by
      rw [hq]
      exact applyWeightKey_valid s1 q _ hq0 hq1
    cases h3 : applyWeightKey { s1 with distance := q } w.consistency
        (fun s q => { s with consistency := q }) with
    | none => simp only [setScoringWeights, h1, h2, h3]
    | some s3 =>
      have e3 : s3.distance = q :=
        applyWeightKey_proj ScoringWeights.distance h3 (fun c q => rfl)
      cases h4 : applyWeightKey s3 w.density (fun s q => { s with density := q }) with
      | none => simp only [setScoringWeights, h1, h2, h3, h4]; exact e3
      | some s4 =>
        have e4 : s4.distance = q :=
          (applyWeightKey_proj ScoringWeights.distance h4 (fun c q => rfl)).trans e3
        cases h5 : applyWeightKey s4 w.history (fun s q => { s with history := q }) with
        | none => simp only [setScoringWeights, h1, h2, h3, h4, h5]; exact e4
        | some s5 =>
          have e5 : s5.distance = q :=
            (applyWeightKey_proj ScoringWeights.distance h5 (fun c q => rfl)).trans e4
          simp only [setScoringWeights, h1, h2, h3, h4, h5]
          exact e5
  · intro q hn1 hn2 hq hq0 hq1
    obtain ⟨s1, h1⟩ := @applyWeightKey_not_none sw w.infoGain
      (fun s q => { s with infoGain := q }) hn1
    obtain ⟨s2, h2⟩ := @applyWeightKey_not_none s1 w.distance
      (fun s q => { s with distance := q }) hn2
    have h3 : applyWeightKey s2 w.consistency (fun s q => { s with consistency := q }) =
        some { s2 with consistency := q } := by
      rw [hq]
      exact applyWeightKey_valid s2 q _ hq0 hq1
    cases h4 : applyWeightKey { s2 with consistency := q } w.density
        (fun s q => { s with density := q }) with
    | none => simp only [setScoringWeights, h1, h2, h3, h4]
    | some s4 =>
      have e4 : s4.consistency = q :=
        applyWeightKey_proj ScoringWeights.consistency h4 (fun c q => rfl)
      cases h5 : applyWeightKey s4 w.history (fun s q => { s with history := q }) with
      | none => simp only [setScoringWeights, h1, h2, h3, h4, h5]; exact e4
      | some s5 =>
        have e5 : s5.consistency = q :=
          (applyWeightKey_proj ScoringWeights.consistency h5 (fun c q => rfl)).trans e4
        simp only [setScoringWeights, h1, h2, h3, h4, h5]
        exact e5
  · intro q hn1 hn2 hn3 hq hq0 hq1
    obtain ⟨s1, h1⟩ := @applyWeightKey_not_none sw w.infoGain
      (fun s q => { s with infoGain := q }) hn1
    obtain ⟨s2, h2⟩ := @applyWeightKey_not_none s1 w.distance
      (fun s q => { s with distance := q }) hn2
    obtain ⟨s3, h3⟩ := @applyWeightKey_not_none s2 w.consistency
      (fun s q => { s with consistency := q }) hn3
    have h4 : applyWeightKey s3 w.density (fun s q => { s with density := q }) =
        some { s3 with density := q } := by
      rw [hq]
      exact applyWeightKey_valid s3 q _ hq0 hq1
    cases h5 : applyWeightKey { s3 with density := q } w.history
        (fun s q => { s with history := q }) with
    | none => simp only [setScoringWeights, h1, h2, h3, h4, h5]
    | some s5 =>
      have e5 : s5.density = q :=
        applyWeightKey_proj ScoringWeights.density h5 (fun c q => rfl)
      simp only [setScoringWeights, h1, h2, h3, h4, h5]
      exact e5
  · intro q hn1 hn2 hn3 hn4 hq hq0 hq1
    obtain ⟨s1, h1⟩ := @applyWeightKey_not_none sw w.infoGain
      (fun s q => { s with infoGain := q }) hn1
    obtain ⟨s2, h2⟩ := @applyWeightKey_not_none s1 w.distance
      (fun s q => { s with distance := q }) hn2
    obtain ⟨s3, h3⟩ := @applyWeightKey_not_none s2 w.consistency
      (fun s q => { s with consistency := q }) hn3
    obtain ⟨s4, h4⟩ := @applyWeightKey_not_none s3 w.density
      (fun s q => { s with density := q }) hn4
    have h5 : applyWeightKey s4 w.history (fun s q => { s with history := q }) =
        some { s4 with history := q } := by
      rw [hq]
      exact applyWeightKey_valid s4 q _ hq0 hq1
    simp only [setScoringWeights, h1, h2, h3, h4, h5]

/-- Witness for C10: a call that fails on the distance key, ignores an
unknown extra key, yet has already written the valid infoGain value. -/
theorem C10_witness :
    ((setScoringWeights initialScoringWeights wC10).1 = false ↔
      (presentInvalid wC10.infoGain ∨ presentInvalid wC10.distance ∨
        presentInvalid wC10.consistency ∨ presentInvalid wC10.density ∨
        presentInvalid wC10.history)) ∧
    wC10.infoGain = some (JSVal.num (1/4)) ∧
    (setScoringWeights initialScoringWeights wC10).2.infoGain = 1/4 :=
  ⟨(C10_setScoringWeights initialScoringWeights wC10).1, rfl,
    (C10_setScoringWeights initialScoringWeights wC10).2.2.1 (1/4) rfl
      (by norm_num) (by norm_num)⟩

/-! ## Claim C4: scorer filter postcondition -/

theorem selectBestFrontier_mem (better : Goal → Goal → Bool) (cfg : EngineConfig)
    (m : OccupancyGrid) (unreachable visited : List Pos2)
    (sb : Option SceneBounds) (pos : Pos3) (frontiers : List Frontier) (g : Goal)
    (h : selectBestFrontier better cfg m unreachable visited sb pos frontiers = some g) :
    ∃ f ∈ frontiers, candidateGoal cfg m unreachable visited sb pos f = some g := by
  unfold selectBestFrontier at h
  have aux : ∀ (l : List Frontier) (acc : Option Goal),
      l.foldl (selectStep better cfg m unreachable visited sb pos) acc = some g →
      acc = some g ∨ ∃ f ∈ l, candidateGoal cfg m unreachable visited sb pos f = some g := by
    intro l
    induction l with
    | nil => intro acc hacc; exact Or.inl hacc
    | cons f rest ih =>
      intro acc hacc
      rw [List.foldl_cons] at hacc
      rcases ih _ hacc with hstep | ⟨f2, hf2, hc2⟩
      · unfold selectStep at hstep
        cases hc : candidateGoal cfg m unreachable visited sb pos f with
        | none =>
          rw [hc] at hstep
          exact Or.inl hstep
        | some c =>
          rw [hc] at hstep
          cases acc with
          | none =>
            dsimp only at hstep
            right
            refine ⟨f, List.mem_cons_self _ _, ?_⟩
            rw [hc]
            exact hstep
          | some b =>
            dsimp only at hstep
            by_cases hb : better b c
            · rw [if_pos hb] at hstep
              right
              refine ⟨f, List.mem_cons_self _ _, ?_⟩
              rw [hc]
              exact hstep
            · rw [if_neg hb] at hstep
              exact Or.inl hstep
      · exact Or.inr ⟨f2, List.mem_cons_of_mem _ hf2, hc2⟩
  rcases aux frontiers none h with hnone | hex
  · cases hnone
  · exact hex

/-- The filter facts recorded by a surviving candidate: its coordinates
are the frontier's, no unreachable record is within 2 m (in the exact
hypot comparison), and the path-clear test succeeded. -/
theorem candidateGoal_filters (cfg : EngineConfig) (m : OccupancyGrid)
    (unreachable visited : List Pos2) (sb : Option SceneBounds) (pos : Pos3)
    (f : Frontier) (g : Goal)
    (h : candidateGoal cfg m unreachable visited sb pos f = some g) :
    g.x = f.x ∧ g.y = f.y ∧
    (unreachable.any (fun u => hypotLt (f.x - u.x) (f.y - u.y) 2)) = false ∧
    isPathClear m pos.x pos.y f.x f.y = true := by
  unfold candidateGoal at h
  split_ifs at h with h1 h2 h3 h4 h5 h6 h7 h8 h9 h10
  injection h with hg
  subst hg
  refine ⟨rfl, rfl, Bool.eq_false_iff.mpr h2, ?_⟩
  cases hpc : isPathClear m pos.x pos.y f.x f.y with
  | false => exact absurd (by rw [hpc]; rfl) h3
  | true => rfl

/-- C4: whenever selectBestFrontier returns a goal, that goal is at
Euclidean distance at least 2 m from every unreachable record, and every
grid cell of the Bresenham line from the current position's cell to the
goal's cell is inside the map with inflated occupancy exactly +1. -/
theorem C4_scorer_filter (better : Goal → Goal → Bool) (cfg : EngineConfig)
    (m : OccupancyGrid) (unreachable visited : List Pos2)
    (sb : Option SceneBounds) (pos : Pos3) (frontiers : List Frontier) (g : Goal)
    (h : selectBestFrontier better cfg m unreachable visited sb pos frontiers = some g) :
    (∀ u ∈ unreachable,
      (2 : ℝ) ≤ Real.sqrt (((g.x - u.x : ℚ) : ℝ) ^ 2 + ((g.y - u.y : ℚ) : ℝ) ^ 2)) ∧
    (∀ p ∈ bresenhamLine (m.worldToGrid pos.x pos.y).1 (m.worldToGrid pos.x pos.y).2
        (m.worldToGrid g.x g.y).1 (m.worldToGrid g.x g.y).2,
      m.isInMap p.1 p.2 = true ∧ m.getInflatedOccupancy p.1 p.2 = 1) := by
  obtain ⟨f, hf, hc⟩ := selectBestFrontier_mem better cfg m unreachable visited sb pos
    frontiers g h
  obtain ⟨hgx, hgy, hbl, hpc⟩ := candidateGoal_filters cfg m unreachable visited sb pos
    f g hc
  constructor
  · intro u hu
    have hnot : hypotLt (f.x - u.x) (f.y - u.y) 2 = false := by
      cases hl : hypotLt (f.x - u.x) (f.y - u.y) 2 with
      | false => rfl
      | true =>
        exfalso
        have hany : unreachable.any (fun u => hypotLt (f.x - u.x) (f.y - u.y) 2) = true :=
          List.any_eq_true.mpr ⟨u, hu, hl⟩
        rw [hany] at hbl
        cases hbl
    have hreal : ¬ (Real.sqrt (((f.x - u.x : ℚ) : ℝ) * ((f.x - u.x : ℚ) : ℝ) +
        ((f.y - u.y : ℚ) : ℝ) * ((f.y - u.y : ℚ) : ℝ)) < ((2 : ℚ) : ℝ)) := by
      rw [← hypotLt_iff, hnot]
      exact Bool.false_ne_true
    push_neg at hreal
    rw [hgx, hgy]
    have hform : ((f.x - u.x : ℚ) : ℝ) ^ 2 + ((f.y - u.y : ℚ) : ℝ) ^ 2 =
        ((f.x - u.x : ℚ) : ℝ) * ((f.x - u.x : ℚ) : ℝ) +
          ((f.y - u.y : ℚ) : ℝ) * ((f.y - u.y : ℚ) : ℝ) := by ring
    rw [hform]
    calc (2 : ℝ) = ((2 : ℚ) : ℝ) := by norm_num
      _ ≤ _ := hreal
  · intro p hp
    rw [hgx, hgy] at hp
    unfold isPathClear at hpc
    have hall := List.all_eq_true.mp hpc p hp
    rcases Bool.and_eq_true _ _ |>.mp hall with ⟨hin, hocc⟩
    exact ⟨hin, of_decide_eq_true hocc⟩

/-- Witness for C4: a concrete call of selectBestFrontier that returns a
goal; the filter postconditions follow by the theorem. -/
theorem C4_witness :
    (selectBestFrontier (fun _ _ => false) cfgC4 gridC4 [⟨10, 10⟩] [] none ⟨0, 0, 1⟩
        [⟨2, 0, 10⟩] = some ⟨2, 0, 3/2, 10, 0, true⟩) ∧
    ((∀ u ∈ ([⟨10, 10⟩] : List Pos2),
      (2 : ℝ) ≤ Real.sqrt (((((⟨2, 0, 3/2, 10, 0, true⟩ : Goal)).x - u.x : ℚ) : ℝ) ^ 2 +
        ((((⟨2, 0, 3/2, 10, 0, true⟩ : Goal)).y - u.y : ℚ) : ℝ) ^ 2)) ∧
    (∀ p ∈ bresenhamLine (gridC4.worldToGrid (0 : ℚ) (0 : ℚ)).1
        (gridC4.worldToGrid (0 : ℚ) (0 : ℚ)).2
        (gridC4.worldToGrid ((⟨2, 0, 3/2, 10, 0, true⟩ : Goal)).x
          ((⟨2, 0, 3/2, 10, 0, true⟩ : Goal)).y).1
        (gridC4.worldToGrid ((⟨2, 0, 3/2, 10, 0, true⟩ : Goal)).x
          ((⟨2, 0, 3/2, 10, 0, true⟩ : Goal)).y).2,
      gridC4.isInMap p.1 p.2 = true ∧ gridC4.getInflatedOccupancy p.1 p.2 = 1)) := by
  have hcomp : selectBestFrontier (fun _ _ => false) cfgC4 gridC4 [⟨10, 10⟩] [] none
      ⟨0, 0, 1⟩ [⟨2, 0, 10⟩] = some ⟨2, 0, 3/2, 10, 0, true⟩ := by
    with_unfolding_all rfl
  exact ⟨hcomp, C4_scorer_filter (fun _ _ => false) cfgC4 gridC4 [⟨10, 10⟩] [] none
    ⟨0, 0, 1⟩ [⟨2, 0, 10⟩] ⟨2, 0, 3/2, 10, 0, true⟩ hcomp⟩

/-- returnToHome only touches isReturningHome and returnHomeMissionId. -/
theorem returnToHome_spec (now : ℕ) (s : EngineState) :
    (returnToHome now s).isExploring = s.isExploring ∧
    (returnToHome now s).visitedGoals = s.visitedGoals ∧
    (returnToHome now s).goalAttempts = s.goalAttempts ∧
    (returnToHome now s).unreachableGoals = s.unreachableGoals ∧
    (returnToHome now s).map = s.map ∧
    (returnToHome now s).frontiers = s.frontiers ∧
    (returnToHome now s).currentGoal = s.currentGoal ∧
    (returnToHome now s).isWaitingForArrival = s.isWaitingForArrival ∧
    (returnToHome now s).missionStartTime = s.missionStartTime := by
  unfold returnToHome
  rcases hsp : s.startPos with _ | sp <;> rcases hcp : s.currentPos with _ | cp <;>
    simp [hsp, hcp]

/-- stopExploration always leaves the controller not exploring and keeps
the bookkeeping lists and the map. -/
theorem stopExploration_spec (now : ℕ) (s : EngineState) :
    (stopExploration now s).isExploring = false ∧
    (stopExploration now s).visitedGoals = s.visitedGoals ∧
    (stopExploration now s).goalAttempts = s.goalAttempts ∧
    (stopExploration now s).unreachableGoals = s.unreachableGoals ∧
    (stopExploration now s).map = s.map := by
  unfold stopExploration
  cases h : s.isExploring
  · simp [h]
  · simp only [h, Bool.not_true, Bool.false_eq_true, if_false]
    rcases hsp : s.startPos with _ | sp <;> rcases hcp : s.currentPos with _ | cp
    · simp [hsp, hcp]
    · simp [hsp, hcp]
    · simp [hsp, hcp]
    · simp only [hsp, hcp]
      split
      · exact ⟨(returnToHome_spec now _).1, (returnToHome_spec now _).2.1,
          (returnToHome_spec now _).2.2.1, (returnToHome_spec now _).2.2.2.1,
          (returnToHome_spec now _).2.2.2.2.1⟩
      · exact ⟨rfl, rfl, rfl, rfl, rfl⟩

/-- The planning tick keeps the mode flags safe and never touches the
visited history or the failed-attempt bookkeeping. -/
theorem explorationStep_spec (pick : EngineState → Goal → Goal → Bool) (now : ℕ)
    (s : EngineState) :
    flagsOk s (explorationStep pick now s) ∧
    (explorationStep pick now s).visitedGoals = s.visitedGoals ∧
    (explorationStep pick now s).goalAttempts = s.goalAttempts ∧
    (explorationStep pick now s).unreachableGoals = s.unreachableGoals := by
  unfold explorationStep
  dsimp only
  repeat' split
  all_goals first
    | exact ⟨Or.inr (Or.inr ⟨rfl, rfl⟩), rfl, rfl, rfl⟩
    | exact ⟨Or.inl (stopExploration_spec now _).1, (stopExploration_spec now _).2.1,
        (stopExploration_spec now _).2.2.1, (stopExploration_spec now _).2.2.2.1⟩

/-- The map stage of the cloud handler only touches sceneBounds, the map
and the status-publish clock. -/
theorem cloudMapStage_spec (now : ℕ) (pc : List Pos3) (cpos : Pos3) (s : EngineState) :
    (cloudMapStage now pc cpos s).isExploring = s.isExploring ∧
    (cloudMapStage now pc cpos s).isReturningHome = s.isReturningHome ∧
    (cloudMapStage now pc cpos s).isPaused = s.isPaused ∧
    (cloudMapStage now pc cpos s).isWaitingForArrival = s.isWaitingForArrival ∧
    (cloudMapStage now pc cpos s).missionStartTime = s.missionStartTime ∧
    (cloudMapStage now pc cpos s).currentGoal = s.currentGoal ∧
    (cloudMapStage now pc cpos s).visitedGoals = s.visitedGoals ∧
    (cloudMapStage now pc cpos s).goalAttempts = s.goalAttempts ∧
    (cloudMapStage now pc cpos s).unreachableGoals = s.unreachableGoals ∧
    (cloudMapStage now pc cpos s).lastUpdateTime = s.lastUpdateTime ∧
    (cloudMapStage now pc cpos s).config = s.config ∧
    (cloudMapStage now pc cpos s).currentPos = s.currentPos := by
  unfold cloudMapStage
  dsimp only
  repeat' split
  all_goals exact ⟨rfl, rfl, rfl, rfl, rfl, rfl, rfl, rfl, rfl, rfl, rfl, rfl⟩

/-- recordFailedAttempt only touches goalAttempts and unreachableGoals. -/
theorem recordFailedAttempt_frame (s : EngineState) :
    (recordFailedAttempt s).visitedGoals = s.visitedGoals ∧
    (recordFailedAttempt s).isExploring = s.isExploring ∧
    (recordFailedAttempt s).isReturningHome = s.isReturningHome ∧
    (recordFailedAttempt s).isPaused = s.isPaused ∧
    (recordFailedAttempt s).isWaitingForArrival = s.isWaitingForArrival ∧
    (recordFailedAttempt s).currentGoal = s.currentGoal ∧
    (recordFailedAttempt s).missionStartTime = s.missionStartTime ∧
    (recordFailedAttempt s).lastVelocityCheck = s.lastVelocityCheck ∧
    (recordFailedAttempt s).stuckStartTime = s.stuckStartTime ∧
    (recordFailedAttempt s).currentPos = s.currentPos ∧
    (recordFailedAttempt s).lastUpdateTime = s.lastUpdateTime ∧
    (recordFailedAttempt s).config = s.config := by
  unfold recordFailedAttempt
  dsimp only
  repeat' split
  all_goals exact ⟨rfl, rfl, rfl, rfl, rfl, rfl, rfl, rfl, rfl, rfl, rfl, rfl⟩

/-- The timeout stage of the cloud handler keeps the mode flags, the
visited history, the planning clock and the position. -/
theorem cloudTimeoutStage_frame (now : ℕ) (s : EngineState) :
    (cloudTimeoutStage now s).isExploring = s.isExploring ∧
    (cloudTimeoutStage now s).isReturningHome = s.isReturningHome ∧
    (cloudTimeoutStage now s).isPaused = s.isPaused ∧
    (cloudTimeoutStage now s).visitedGoals = s.visitedGoals ∧
    (cloudTimeoutStage now s).lastUpdateTime = s.lastUpdateTime ∧
    (cloudTimeoutStage now s).config = s.config ∧
    (cloudTimeoutStage now s).currentPos = s.currentPos := by
  obtain ⟨f1, f2, f3, f4, f5, f6, f7, f8, f9, f10, f11, f12⟩ := recordFailedAttempt_frame s
  unfold cloudTimeoutStage
  dsimp only
  repeat' split
  all_goals first
    | exact ⟨rfl, rfl, rfl, rfl, rfl, rfl, rfl⟩
    | exact ⟨f2, f3, f4, f1, f11, f12, f10⟩

/-- A transition with the same final flags as another safe transition is
itself safe. -/
theorem flagsOk_congr {s t u : EngineState} (h : flagsOk s t)
    (hr : u.isReturningHome = t.isReturningHome) (he : u.isExploring = t.isExploring) :
    flagsOk s u := by
  unfold flagsOk at h ⊢
  rw [hr, he]; exact h

/-- The replanning stage of the cloud handler keeps the flags safe and
never touches the visited history or the attempt bookkeeping. -/
theorem cloudPlanStage_spec (pick : EngineState → Goal → Goal → Bool) (now : ℕ)
    (s : EngineState) :
    flagsOk s (cloudPlanStage pick now s) ∧
    (cloudPlanStage pick now s).visitedGoals = s.visitedGoals ∧
    (cloudPlanStage pick now s).goalAttempts = s.goalAttempts ∧
    (cloudPlanStage pick now s).unreachableGoals = s.unreachableGoals := by
  obtain ⟨hf, hv, ha, hu⟩ := explorationStep_spec pick now s
  unfold cloudPlanStage
  dsimp only
  repeat' split
  all_goals first
    | exact ⟨Or.inr (Or.inr ⟨rfl, rfl⟩), rfl, rfl, rfl⟩
    | exact ⟨flagsOk_congr hf rfl rfl, hv, ha, hu⟩

/-- The cloud handler keeps the flags safe and never touches the visited
history. -/
theorem onPointCloudReceived_spec (pick : EngineState → Goal → Goal → Bool)
    (now : ℕ) (pc : List Pos3) (s : EngineState) :
    flagsOk s (onPointCloudReceived pick now pc s) ∧
    (onPointCloudReceived pick now pc s).visitedGoals = s.visitedGoals := by
  unfold onPointCloudReceived
  rcases hcp : s.currentPos with _ | cpos
  · exact ⟨Or.inr (Or.inr ⟨rfl, rfl⟩), rfl⟩
  dsimp only
  split
  · exact ⟨Or.inr (Or.inr ⟨rfl, rfl⟩), rfl⟩
  obtain ⟨m1, m2, m3, m4, m5, m6, m7, m8, m9, m10, m11, m12⟩ :=
    cloudMapStage_spec now pc cpos s
  obtain ⟨t1, t2, t3, t4, t5, t6, t7⟩ :=
    cloudTimeoutStage_frame now (cloudMapStage now pc cpos s)
  obtain ⟨pf, pv, pa, pu⟩ :=
    cloudPlanStage_spec pick now (cloudTimeoutStage now (cloudMapStage now pc cpos s))
  refine ⟨?_, pv.trans (t4.trans m7)⟩
  rcases pf with h | h | ⟨h1, h2⟩
  · exact Or.inl h
  · exact Or.inr (Or.inl h)
  · exact Or.inr (Or.inr ⟨h1.trans (t2.trans m2), h2.trans (t1.trans m1)⟩)

/-- startExploration never touches the returning flag or the attempt
bookkeeping, and clears the visited history exactly when it succeeds. -/
theorem startExploration_spec (now : ℕ) (opts : StartOptions) (s : EngineState) :
    (startExploration now opts s).isReturningHome = s.isReturningHome ∧
    (startExploration now opts s).goalAttempts = s.goalAttempts ∧
    (startExploration now opts s).unreachableGoals = s.unreachableGoals ∧
    (startExploration now opts s).visitedGoals =
      (if (!s.isExploring && (opts.startPosition.isSome || s.currentPos.isSome)) = true
       then [] else s.visitedGoals) := by
  unfold startExploration
  cases he : s.isExploring
  · rcases hop : opts.startPosition with _ | p
    · rcases hcp : s.currentPos with _ | cp
      · simp [he, hop, hcp]
      · simp [he, hop, hcp]
    · simp [he, hop]
  · simp [he]

/-- pauseExploration only touches isPaused. -/
theorem pauseExploration_spec (s : EngineState) :
    (pauseExploration s).isExploring = s.isExploring ∧
    (pauseExploration s).isReturningHome = s.isReturningHome ∧
    (pauseExploration s).visitedGoals = s.visitedGoals ∧
    (pauseExploration s).goalAttempts = s.goalAttempts ∧
    (pauseExploration s).unreachableGoals = s.unreachableGoals := by
  unfold pauseExploration
  split <;> exact ⟨rfl, rfl, rfl, rfl, rfl⟩

/-- resumeExploration keeps the flags safe and never touches the visited
history or the attempt bookkeeping. -/
theorem resumeExploration_spec (pick : EngineState → Goal → Goal → Bool) (now : ℕ)
    (s : EngineState) :
    flagsOk s (resumeExploration pick now s) ∧
    (resumeExploration pick now s).visitedGoals = s.visitedGoals ∧
    (resumeExploration pick now s).goalAttempts = s.goalAttempts ∧
    (resumeExploration pick now s).unreachableGoals = s.unreachableGoals := by
  unfold resumeExploration
  split
  · exact ⟨Or.inr (Or.inr ⟨rfl, rfl⟩), rfl, rfl, rfl⟩
  obtain ⟨hf, hv, ha, hu⟩ :=
    explorationStep_spec pick now { s with isPaused := false, isWaitingForArrival := false }
  exact ⟨flagsOk_congr hf rfl rfl, hv, ha, hu⟩

/-- reset(): the grid is wiped, the frontier and visited lists are
emptied, exploration stops, and the attempt bookkeeping is untouched. -/
theorem engineReset_spec (now : ℕ) (s : EngineState) :
    (engineReset now s).map = s.map.reset ∧
    (engineReset now s).frontiers = [] ∧
    (engineReset now s).visitedGoals = [] ∧
    (engineReset now s).isExploring = false ∧
    (engineReset now s).goalAttempts = s.goalAttempts ∧
    (engineReset now s).unreachableGoals = s.unreachableGoals := by
  obtain ⟨he, hv, ha, hu, hm⟩ := stopExploration_spec now s
  unfold engineReset
  dsimp only
  exact ⟨congrArg OccupancyGrid.reset hm, rfl, rfl, he, ha, hu⟩

/-- A safe flag transition out of a safe state lands in a safe state. -/
theorem returnInvariant_of_flagsOk {s t : EngineState} (h : returnInvariant s)
    (hf : flagsOk s t) : returnInvariant t := by
  rcases hf with hf | hf | ⟨h1, h2⟩
  · exact fun _ => hf
  · intro hr; rw [hf] at hr; exact (Bool.false_ne_true hr).elim
  · intro hr; rw [h2]; exact h (h1 ▸ hr)

/-- The return-home completion check only touches isReturningHome (which
it can only clear) and returnHomeMissionId. -/
theorem odomReturnCheck_frame (p : Pos3) (s : EngineState) :
    (odomReturnCheck p s).visitedGoals = s.visitedGoals ∧
    (odomReturnCheck p s).isWaitingForArrival = s.isWaitingForArrival ∧
    (odomReturnCheck p s).currentGoal = s.currentGoal ∧
    (odomReturnCheck p s).lastVelocityCheck = s.lastVelocityCheck ∧
    (odomReturnCheck p s).stuckStartTime = s.stuckStartTime ∧
    (odomReturnCheck p s).goalAttempts = s.goalAttempts ∧
    (odomReturnCheck p s).unreachableGoals = s.unreachableGoals ∧
    (odomReturnCheck p s).isExploring = s.isExploring ∧
    (odomReturnCheck p s).missionStartTime = s.missionStartTime ∧
    (odomReturnCheck p s).isPreparingNextGoal = s.isPreparingNextGoal ∧
    (odomReturnCheck p s).currentPos = s.currentPos ∧
    ((odomReturnCheck p s).isReturningHome = false ∨
      (odomReturnCheck p s).isReturningHome = s.isReturningHome) := by
  unfold odomReturnCheck
  repeat' split
  all_goals first
    | exact ⟨rfl, rfl, rfl, rfl, rfl, rfl, rfl, rfl, rfl, rfl, rfl, Or.inl rfl⟩
    | exact ⟨rfl, rfl, rfl, rfl, rfl, rfl, rfl, rfl, rfl, rfl, rfl, Or.inr rfl⟩

/-- The stuck test reads none of the fields the return-home check can
write. -/
theorem stuckCheck_odomReturnCheck (now : ℕ) (p q : Pos3) (s : EngineState) :
    stuckCheck now p (odomReturnCheck q s) = stuckCheck now p s := by
  obtain ⟨-, -, -, h4, h5, -⟩ := odomReturnCheck_frame q s
  unfold stuckCheck
  rw [h4, h5]

/-- The odometry core never moves the two mode flags. -/
theorem odomCore_flags (now : ℕ) (p : Pos3) (s : EngineState) :
    (odomCore now p s).isExploring = s.isExploring ∧
    (odomCore now p s).isReturningHome = s.isReturningHome := by
  unfold odomCore
  dsimp only
  repeat' split
  all_goals first
    | exact ⟨rfl, rfl⟩
    | exact ⟨(recordFailedAttempt_frame _).2.1, (recordFailedAttempt_frame _).2.2.1⟩

/-- C1 counterexample: the claimed invariant is false.  returnToHome never
checks or clears isExploring, so invoking it during an exploration run
reaches a state with both mode flags set. -/
theorem C1_counterexample :
    ∃ s, Reachable (fun _ _ _ => false) s ∧
      s.isReturningHome = true ∧ s.isExploring = true := by
  refine ⟨_, ⟨[Event.start 1 ⟨some ⟨0, 0, 1⟩,
    fun c => { c with mapWidth := 1, mapHeight := 1 }⟩, Event.goHome 2], rfl⟩, ?_, ?_⟩ <;>
    with_unfolding_all rfl

/-- C1 (amended): the mode-exclusion invariant (isReturningHome implies
not isExploring) is preserved by every event, provided returnToHome is
only invoked while not exploring and startExploration only while not
returning home; the unguarded events preserve it unconditionally. -/
theorem C1_mode_exclusion (pick : EngineState → Goal → Goal → Bool)
    (s : EngineState) (e : Event)
    (hInv : returnInvariant s)
    (hHome : ∀ now, e = Event.goHome now → s.isExploring = false)
    (hStart : ∀ now opts, e = Event.start now opts → s.isReturningHome = false) :
    returnInvariant (step pick s e) := by
  cases e with
  | cloud now pc =>
    exact returnInvariant_of_flagsOk hInv (onPointCloudReceived_spec pick now pc s).1
  | odom now p =>
    obtain ⟨-, -, -, -, -, -, -, hexp, -, -, -, hret⟩ := odomReturnCheck_frame p s
    obtain ⟨hc1, hc2⟩ := odomCore_flags now p (odomReturnCheck p s)
    intro hr
    show (odomCore now p (odomReturnCheck p s)).isExploring = false
    rw [hc1, hexp]
    rw [show (step pick s (Event.odom now p)).isReturningHome =
      (odomCore now p (odomReturnCheck p s)).isReturningHome from rfl, hc2] at hr
    rcases hret with hret | hret
    · rw [hret] at hr; exact (Bool.false_ne_true hr).elim
    · exact hInv (hret ▸ hr)
  | start now opts =>
    intro hr
    rw [show (step pick s (Event.start now opts)).isReturningHome =
      (startExploration now opts s).isReturningHome from rfl,
      (startExploration_spec now opts s).1, hStart now opts rfl] at hr
    exact (Bool.false_ne_true hr).elim
  | stop now => exact fun _ => (stopExploration_spec now s).1
  | goHome now =>
    intro hr
    show (returnToHome now s).isExploring = false
    rw [(returnToHome_spec now s).1]
    exact hHome now rfl
  | pauseEv =>
    exact returnInvariant_of_flagsOk hInv
      (Or.inr (Or.inr ⟨(pauseExploration_spec s).2.1, (pauseExploration_spec s).1⟩))
  | resumeEv now =>
    exact returnInvariant_of_flagsOk hInv (resumeExploration_spec pick now s).1
  | tick now =>
    exact returnInvariant_of_flagsOk hInv (explorationStep_spec pick now s).1
  | resetEv now => exact fun _ => (engineReset_spec now s).2.2.2.1

/-- Witness for the amended C1 theorem at the initial state and a pause
event. -/
theorem C1_mode_exclusion_witness :
    returnInvariant (step (fun _ _ _ => false) initState Event.pauseEv) :=
  C1_mode_exclusion (fun _ _ _ => false) initState Event.pauseEv
    (fun _ => rfl) (fun _ h => nomatch h) (fun _ _ h => nomatch h)

/-- C9 counterexample: reset() leaves both the per-goal attempt counters
and the unreachable-goal blacklist in place. -/
theorem C9_counterexample :
    (engineReset 0 sC9).goalAttempts = [(goalKey 1 1, 3)] ∧
    (engineReset 0 sC9).unreachableGoals = [⟨5, 5⟩] ∧
    (engineReset 0 sC9).goalAttempts ≠ [] := by
  refine ⟨by with_unfolding_all rfl, by with_unfolding_all rfl, ?_⟩
  intro h
  rw [show (engineReset 0 sC9).goalAttempts = [(goalKey 1 1, 3)] from by
    with_unfolding_all rfl] at h
  exact List.noConfusion h

/-- C9 (amended): reset() wipes the raw and inflated grids and the stats,
empties the frontier and visited lists and stops exploring, but leaves
goalAttempts and unreachableGoals untouched. -/
theorem C9_reset_postcondition (now : ℕ) (s : EngineState) :
    (engineReset now s).map.data = List.replicate (s.map.width * s.map.height) 0 ∧
    (engineReset now s).map.inflatedData = List.replicate (s.map.width * s.map.height) 0 ∧
    (engineReset now s).map.statsUnknown = s.map.width * s.map.height ∧
    (engineReset now s).map.statsFree = 0 ∧
    (engineReset now s).map.statsOccupied = 0 ∧
    (engineReset now s).frontiers = [] ∧
    (engineReset now s).visitedGoals = [] ∧
    (engineReset now s).isExploring = false ∧
    (engineReset now s).goalAttempts = s.goalAttempts ∧
    (engineReset now s).unreachableGoals = s.unreachableGoals := by
  obtain ⟨hm, hf, hv, he, ha, hu⟩ := engineReset_spec now s
  refine ⟨?_, ?_, ?_, ?_, ?_, hf, hv, he, ha, hu⟩ <;> rw [hm] <;> rfl

/-- While not waiting for arrival the odometry core only stores the new
position. -/
theorem odomCore_eq_of_notWaiting (now : ℕ) (p : Pos3) (s : EngineState)
    (hw : s.isWaitingForArrival = false) :
    odomCore now p s = { s with currentPos := some p } := by
  unfold odomCore
  simp [hw]

/-- With no current goal the odometry core only stores the new position. -/
theorem odomCore_eq_of_noGoal (now : ℕ) (p : Pos3) (s : EngineState)
    (hg : s.currentGoal = none) :
    odomCore now p s = { s with currentPos := some p } := by
  unfold odomCore
  cases hw : s.isWaitingForArrival <;> simp [hw, hg]

/-- A firing stuck check records a failed attempt, clears the waiting and
stuck state and returns early without touching currentPos. -/
theorem odomCore_eq_of_stuck (now : ℕ) (p : Pos3) (s : EngineState) (g : Goal)
    (hw : s.isWaitingForArrival = true) (hg : s.currentGoal = some g)
    (hsc : stuckCheck now p s = true) :
    odomCore now p s =
      { recordFailedAttempt s with
        isWaitingForArrival := false
        currentGoal := none
        missionStartTime := none
        stuckStartTime := none
        lastVelocityCheck := none } := by
  unfold odomCore
  rw [if_pos hw, hg]
  dsimp only
  rw [if_pos hsc]

/-- An arrival within 0.3 m (with the stuck check silent) appends the goal
to the visited list, erases its attempt counter and clears the waiting
state. -/
theorem odomCore_spec_arrival (now : ℕ) (p : Pos3) (s : EngineState) (g : Goal)
    (hw : s.isWaitingForArrival = true) (hg : s.currentGoal = some g)
    (hsc : stuckCheck now p s = false)
    (harr : hypotLt (p.x - g.x) (p.y - g.y) 0.3 = true) :
    (odomCore now p s).visitedGoals = s.visitedGoals ++ [⟨g.x, g.y⟩] ∧
    (odomCore now p s).goalAttempts = alistErase (goalKey g.x g.y) s.goalAttempts ∧
    (odomCore now p s).unreachableGoals = s.unreachableGoals ∧
    (odomCore now p s).isWaitingForArrival = false ∧
    (odomCore now p s).currentGoal = none ∧
    (odomCore now p s).missionStartTime = none ∧
    (odomCore now p s).currentPos = some p := by
  unfold odomCore
  rw [if_pos hw, hg]
  dsimp only
  rw [if_neg (by rw [hsc]; exact Bool.false_ne_true), if_pos harr]
  repeat' split
  all_goals exact ⟨rfl, rfl, rfl, rfl, rfl, rfl, rfl⟩

/-- A waiting odometry event that neither fires the stuck check nor
arrives leaves the visited list, the bookkeeping and the waiting state
unchanged and stores the new position. -/
theorem odomCore_spec_noArrival (now : ℕ) (p : Pos3) (s : EngineState) (g : Goal)
    (hw : s.isWaitingForArrival = true) (hg : s.currentGoal = some g)
    (hsc : stuckCheck now p s = false)
    (harr : hypotLt (p.x - g.x) (p.y - g.y) 0.3 = false) :
    (odomCore now p s).visitedGoals = s.visitedGoals ∧
    (odomCore now p s).goalAttempts = s.goalAttempts ∧
    (odomCore now p s).unreachableGoals = s.unreachableGoals ∧
    (odomCore now p s).isWaitingForArrival = s.isWaitingForArrival ∧
    (odomCore now p s).currentGoal = s.currentGoal ∧
    (odomCore now p s).missionStartTime = s.missionStartTime ∧
    (odomCore now p s).currentPos = some p := by
  unfold odomCore
  rw [if_pos hw, hg]
  dsimp only
  rw [if_neg (by rw [hsc]; exact Bool.false_ne_true),
    if_neg (by rw [harr]; exact Bool.false_ne_true)]
  repeat' split
  all_goals first
    | exact ⟨rfl, rfl, rfl, rfl, rfl, rfl, rfl⟩
    | exact ⟨rfl, rfl, rfl, rfl, hg, rfl, rfl⟩

/-- C3 counterexample: the claim is false.  startExploration resets
visitedGoals to [], so the list is not append-only and is modified by an
operation that is not an arrival event. -/
theorem C3_counterexample :
    sC3.visitedGoals = [⟨1, 1⟩] ∧
    (startExploration 0 ⟨none, id⟩ sC3).visitedGoals = [] ∧
    ∀ l : List Pos2,
      (startExploration 0 ⟨none, id⟩ sC3).visitedGoals ≠ sC3.visitedGoals ++ l := by
  refine ⟨rfl, by with_unfolding_all rfl, ?_⟩
  intro l h
  rw [show (startExploration 0 ⟨none, id⟩ sC3).visitedGoals = [] from by
      with_unfolding_all rfl,
    show sC3.visitedGoals = [⟨1, 1⟩] from rfl] at h
  exact List.noConfusion h

/-- C3 (amended): visitedGoals gains an entry exactly on an arrival event
(a pose event while waiting, with the stuck check silent and the distance
to the current goal below 0.3 m; that appends the goal coordinates, erases
its attempt counter and clears the waiting flag); it is cleared by a
succeeding startExploration and by reset, and no other event modifies it
(in particular selection never does). -/
theorem C3_visited (pick : EngineState → Goal → Goal → Bool)
    (s : EngineState) (e : Event) :
    match e with
    | Event.odom now p =>
      if s.isWaitingForArrival = true then
        match s.currentGoal with
        | some g =>
          if (!stuckCheck now p s && hypotLt (p.x - g.x) (p.y - g.y) 0.3) = true then
            (step pick s e).visitedGoals = s.visitedGoals ++ [⟨g.x, g.y⟩] ∧
            (step pick s e).goalAttempts = alistErase (goalKey g.x g.y) s.goalAttempts ∧
            (step pick s e).isWaitingForArrival = false
          else (step pick s e).visitedGoals = s.visitedGoals
        | none => (step pick s e).visitedGoals = s.visitedGoals
      else (step pick s e).visitedGoals = s.visitedGoals
    | Event.start now opts =>
      (step pick s e).visitedGoals =
        if (!s.isExploring && (opts.startPosition.isSome || s.currentPos.isSome)) = true
        then [] else s.visitedGoals
    | Event.resetEv _ => (step pick s e).visitedGoals = []
    | _ => (step pick s e).visitedGoals = s.visitedGoals := by
  cases e with
  | cloud now pc => exact (onPointCloudReceived_spec pick now pc s).2
  | odom now p =>
    have hstep : step pick s (Event.odom now p) =
        odomCore now p (odomReturnCheck p s) := rfl
    obtain ⟨rv, rw1, rg, rlvc, rsst, rga, rug, rexp, rmst, rprep, rcp, rret⟩ :=
      odomReturnCheck_frame p s
    have hsc0 := stuckCheck_odomReturnCheck now p p s
    dsimp only
    cases hw : s.isWaitingForArrival
    · rw [if_neg Bool.false_ne_true, hstep,
        odomCore_eq_of_notWaiting now p _ (rw1.trans hw)]
      exact rv
    · rw [if_pos rfl]
      rcases hg : s.currentGoal with _ | g <;> dsimp only
      · rw [hstep, odomCore_eq_of_noGoal now p _ (rg.trans hg)]
        exact rv
      · cases hsc : stuckCheck now p s
        · cases harr : hypotLt (p.x - g.x) (p.y - g.y) 0.3
          · rw [if_neg (by simp), hstep]
            obtain ⟨v, -⟩ := odomCore_spec_noArrival now p _ g (rw1.trans hw)
              (rg.trans hg) (hsc0.trans hsc) harr
            exact v.trans rv
          · rw [if_pos (by simp), hstep]
            obtain ⟨v, a, -, w, -⟩ := odomCore_spec_arrival now p _ g (rw1.trans hw)
              (rg.trans hg) (hsc0.trans hsc) harr
            exact ⟨v.trans (by rw [rv]), a.trans (by rw [rga]), w⟩
        · rw [if_neg (by simp), hstep,
            odomCore_eq_of_stuck now p _ g (rw1.trans hw) (rg.trans hg)
              (hsc0.trans hsc)]
          exact ((recordFailedAttempt_frame _).1).trans rv
  | start now opts => exact (startExploration_spec now opts s).2.2.2
  | stop now => exact (stopExploration_spec now s).2.1
  | goHome now => exact (returnToHome_spec now s).2.1
  | pauseEv => exact (pauseExploration_spec s).2.2.1
  | resumeEv now => exact (resumeExploration_spec pick now s).2.1
  | tick now => exact (explorationStep_spec pick now s).2.1
  | resetEv now => exact (engineReset_spec now s).2.2.1

/-- Looking up the key just set returns the new counter. -/
theorem alistGet_set_self (k : (Bool × ℕ) × (Bool × ℕ)) (n : ℕ)
    (l : List ((((Bool × ℕ) × (Bool × ℕ))) × ℕ)) :
    alistGet k (alistSet k n l) = some n := by
  induction l with
  | nil => simp [alistSet, alistGet]
  | cons e rest ih =>
    by_cases he : e.1 = k
    · simp [alistSet, alistGet, he]
    · simp [alistSet, alistGet, he, ih]

/-- Setting one key leaves every other key's lookup unchanged. -/
theorem alistGet_set_ne (k k2 : (Bool × ℕ) × (Bool × ℕ)) (n : ℕ)
    (l : List ((((Bool × ℕ) × (Bool × ℕ))) × ℕ)) (h : k2 ≠ k) :
    alistGet k2 (alistSet k n l) = alistGet k2 l := by
  induction l with
  | nil =>
    have h1 : ¬ (k = k2) := fun h2 => h h2.symm
    simp [alistSet, alistGet, h1]
  | cons e rest ih =>
    by_cases he : e.1 = k
    · have h1 : ¬ (k = k2) := fun h2 => h h2.symm
      have h2 : ¬ (e.1 = k2) := fun h3 => h (h3.symm.trans he)
      simp [alistSet, alistGet, he, h1, h2]
    · by_cases he2 : e.1 = k2
      · simp [alistSet, alistGet, he, he2, h]
      · simp [alistSet, alistGet, he, he2, ih]

/-- Every binding of an updated association list is the new binding or an
old one. -/
theorem alistSet_mem (k : (Bool × ℕ) × (Bool × ℕ)) (n : ℕ)
    (l : List ((((Bool × ℕ) × (Bool × ℕ))) × ℕ)) (kv : (((Bool × ℕ) × (Bool × ℕ))) × ℕ)
    (h : kv ∈ alistSet k n l) : kv = (k, n) ∨ kv ∈ l := by
  induction l with
  | nil => simpa [alistSet] using h
  | cons e rest ih =>
    by_cases he : e.1 = k
    · rw [alistSet, if_pos he] at h
      rcases List.mem_cons.mp h with h1 | h1
      · exact Or.inl h1
      · exact Or.inr (List.mem_cons_of_mem _ h1)
    · rw [alistSet, if_neg he] at h
      rcases List.mem_cons.mp h with h1 | h1
      · exact Or.inr (h1 ▸ List.mem_cons_self _ _)
      · rcases ih h1 with h2 | h2
        · exact Or.inl h2
        · exact Or.inr (List.mem_cons_of_mem _ h2)

/-- Erasing a key only drops bindings. -/
theorem alistErase_mem (k : (Bool × ℕ) × (Bool × ℕ))
    (l : List ((((Bool × ℕ) × (Bool × ℕ))) × ℕ)) (kv : (((Bool × ℕ) × (Bool × ℕ))) × ℕ)
    (h : kv ∈ alistErase k l) : kv ∈ l := by
  induction l with
  | nil => simpa [alistErase] using h
  | cons e rest ih =>
    by_cases he : e.1 = k
    · rw [alistErase, if_pos he] at h
      exact List.mem_cons_of_mem _ h
    · rw [alistErase, if_neg he] at h
      rcases List.mem_cons.mp h with h1 | h1
      · exact h1 ▸ List.mem_cons_self _ _
      · exact List.mem_cons_of_mem _ (ih h1)

/-- A successful lookup exhibits a binding of the list. -/
theorem alistGet_mem (k : (Bool × ℕ) × (Bool × ℕ)) (n : ℕ)
    (l : List ((((Bool × ℕ) × (Bool × ℕ))) × ℕ)) (h : alistGet k l = some n) :
    (k, n) ∈ l := by
  induction l with
  | nil => simp [alistGet] at h
  | cons e rest ih =>
    by_cases he : e.1 = k
    · rw [alistGet, if_pos he] at h
      injection h with h2
      have : e = (k, n) := by
        cases e
        cases he
        cases h2
        rfl
      exact this ▸ List.mem_cons_self _ _
    · rw [alistGet, if_neg he] at h
      exact List.mem_cons_of_mem _ (ih h)

/-- Two reals sharing a toFixed(1) key part differ by less than 0.1. -/
theorem keyPart_close (a b : ℚ) (h : keyPart a = keyPart b) : |a - b| < 1/10 := by
  unfold keyPart at h
  have hs : decide (a < 0) = decide (b < 0) := congrArg Prod.fst h
  have hn : (⌊10 * |a| + 1/2⌋).toNat = (⌊10 * |b| + 1/2⌋).toNat := congrArg Prod.snd h
  have ha0 : (0 : ℤ) ≤ ⌊10 * |a| + 1/2⌋ := by
    apply Int.floor_nonneg.mpr
    positivity
  have hb0 : (0 : ℤ) ≤ ⌊10 * |b| + 1/2⌋ := by
    apply Int.floor_nonneg.mpr
    positivity
  have hfl : ⌊10 * |a| + 1/2⌋ = ⌊10 * |b| + 1/2⌋ := by
    rw [← Int.toNat_of_nonneg ha0, ← Int.toNat_of_nonneg hb0, hn]
  have habs : |(|a|) - (|b|)| < 1/10 := by
    have h1 := Int.floor_le (10 * |a| + 1/2)
    have h2 := Int.lt_floor_add_one (10 * |a| + 1/2)
    have h3 := Int.floor_le (10 * |b| + 1/2)
    have h4 := Int.lt_floor_add_one (10 * |b| + 1/2)
    rw [hfl] at h1 h2
    rw [abs_sub_lt_iff]
    constructor <;> linarith
  have hiff : a < 0 ↔ b < 0 := decide_eq_decide.mp hs
  by_cases hA : a < 0
  · have hB : b < 0 := hiff.mp hA
    rw [abs_of_neg hA, abs_of_neg hB] at habs
    have hne : -a - -b = -(a - b) := by ring
    rw [hne, abs_neg] at habs
    exact habs
  · have hB : ¬ b < 0 := fun hb => hA (hiff.mpr hb)
    rw [abs_of_nonneg (le_of_not_lt hA), abs_of_nonneg (le_of_not_lt hB)] at habs
    exact habs

/-- Two goals sharing the rounded-coordinate key are within 2 m of each
other in the exact hypot comparison of the blacklist filter. -/
theorem goalKey_close (x1 y1 x2 y2 : ℚ) (h : goalKey x1 y1 = goalKey x2 y2) :
    hypotLt (x1 - x2) (y1 - y2) 2 = true := by
  unfold goalKey at h
  have hx := keyPart_close x1 x2 (congrArg Prod.fst h)
  have hy := keyPart_close y1 y2 (congrArg Prod.snd h)
  unfold hypotLt
  apply decide_eq_true
  refine ⟨by norm_num, ?_⟩
  have hx2 : (x1 - x2) * (x1 - x2) < 1/100 := by
    nlinarith [abs_mul_abs_self (x1 - x2), abs_nonneg (x1 - x2)]
  have hy2 : (y1 - y2) * (y1 - y2) < 1/100 := by
    nlinarith [abs_mul_abs_self (y1 - y2), abs_nonneg (y1 - y2)]
  nlinarith

/-- recordFailedAttempt with a current goal: the goal's counter is bumped
by exactly one, and the goal joins the blacklist exactly when the new
counter reaches maxAttempts. -/
theorem recordFailedAttempt_spec (s : EngineState) (g : Goal)
    (hg : s.currentGoal = some g) :
    (recordFailedAttempt s).goalAttempts =
      alistSet (goalKey g.x g.y)
        ((alistGet (goalKey g.x g.y) s.goalAttempts).getD 0 + 1) s.goalAttempts ∧
    (recordFailedAttempt s).unreachableGoals =
      (if maxAttempts ≤ (alistGet (goalKey g.x g.y) s.goalAttempts).getD 0 + 1
       then s.unreachableGoals ++ [⟨g.x, g.y⟩] else s.unreachableGoals) := by
  unfold recordFailedAttempt
  rw [hg]
  dsimp only
  split
  · exact ⟨rfl, rfl⟩
  · exact ⟨rfl, rfl⟩

/-- After recordFailedAttempt the counters stay bounded and saturated
counters keep a blacklist witness. -/
theorem recordFailedAttempt_inv (s : EngineState) (h : attemptsInv s) :
    (∀ kv ∈ (recordFailedAttempt s).goalAttempts, kv.2 ≤ maxAttempts) ∧
    (∀ kv ∈ (recordFailedAttempt s).goalAttempts, kv.2 = maxAttempts →
      ∃ u ∈ (recordFailedAttempt s).unreachableGoals, goalKey u.x u.y = kv.1) := by
  obtain ⟨hb, hc, hw⟩ := h
  rcases hgoal : s.currentGoal with _ | g
  · have : recordFailedAttempt s = s := by
      unfold recordFailedAttempt
      rw [hgoal]
    rw [this]
    exact ⟨hb, hw⟩
  · obtain ⟨ha, hu⟩ := recordFailedAttempt_spec s g hgoal
    have hn1 : (alistGet (goalKey g.x g.y) s.goalAttempts).getD 0 + 1 ≤ maxAttempts := by
      rcases hget : alistGet (goalKey g.x g.y) s.goalAttempts with _ | n0
      · simp [maxAttempts]
      · have := hc g n0 hgoal hget
        simpa using this
    constructor
    · intro kv hkv
      rw [ha] at hkv
      rcases alistSet_mem _ _ _ _ hkv with hkv2 | hkv2
      · rw [hkv2]
        exact hn1
      · exact hb kv hkv2
    · intro kv hkv hksat
      rw [ha] at hkv
      have hmono : ∀ u ∈ s.unreachableGoals, u ∈ (recordFailedAttempt s).unreachableGoals := by
        intro u hu2
        rw [hu]
        split
        · exact List.mem_append_left _ hu2
        · exact hu2
      rcases alistSet_mem _ _ _ _ hkv with hkv2 | hkv2
      · refine ⟨⟨g.x, g.y⟩, ?_, ?_⟩
        · rw [hu, if_pos (by rw [hkv2] at hksat; dsimp at hksat; omega)]
          exact List.mem_append_right _ (List.mem_singleton_self _)
        · rw [hkv2]
      · obtain ⟨u, hu2, hk2⟩ := hw kv hkv2 hksat
        exact ⟨u, hmono u hu2, hk2⟩

/-- The timeout stage either does nothing or records the failure and
clears the waiting state. -/
theorem cloudTimeoutStage_cases (now : ℕ) (s : EngineState) :
    cloudTimeoutStage now s = s ∨
    cloudTimeoutStage now s =
      { recordFailedAttempt s with
        isWaitingForArrival := false
        currentGoal := none
        missionStartTime := none } := by
  unfold cloudTimeoutStage
  repeat' split
  all_goals first
    | exact Or.inl rfl
    | exact Or.inr rfl

/-- The timeout stage fires exactly on the 8000 ms arrival timeout. -/
theorem cloudTimeoutStage_fires (now : ℕ) (s : EngineState) (t0 : ℕ)
    (hwait : s.isWaitingForArrival = true) (hmst : s.missionStartTime = some t0)
    (htime : (now : ℤ) - (t0 : ℤ) > 8000) :
    cloudTimeoutStage now s =
      { recordFailedAttempt s with
        isWaitingForArrival := false
        currentGoal := none
        missionStartTime := none } := by
  unfold cloudTimeoutStage
  rw [if_pos hwait, hmst]
  dsimp only
  rw [if_pos (decide_eq_true htime)]

/-- stopExploration never touches the current goal. -/
theorem stopExploration_currentGoal (now : ℕ) (s : EngineState) :
    (stopExploration now s).currentGoal = s.currentGoal := by
  unfold stopExploration
  cases h : s.isExploring
  · simp [h]
  · simp only [h, Bool.not_true, Bool.false_eq_true, if_false]
    rcases hsp : s.startPos with _ | sp <;> rcases hcp : s.currentPos with _ | cp <;>
      simp only [hsp, hcp] <;> try rfl
    split
    · exact (returnToHome_spec now _).2.2.2.2.2.2.1
    · rfl

/-- startExploration never touches the current goal. -/
theorem startExploration_currentGoal (now : ℕ) (opts : StartOptions) (s : EngineState) :
    (startExploration now opts s).currentGoal = s.currentGoal := by
  unfold startExploration
  cases he : s.isExploring
  · rcases hop : opts.startPosition with _ | p <;>
      rcases hcp : s.currentPos with _ | cp <;> simp [he, hop, hcp]
  · simp [he]

/-- pauseExploration never touches the current goal. -/
theorem pauseExploration_currentGoal (s : EngineState) :
    (pauseExploration s).currentGoal = s.currentGoal := by
  unfold pauseExploration
  split <;> rfl

/-- A planning tick either leaves goal and bookkeeping alone or selects a
goal that passed the blacklist-proximity filter. -/
theorem explorationStep_goalFacts (pick : EngineState → Goal → Goal → Bool)
    (now : ℕ) (s : EngineState) :
    ((explorationStep pick now s).currentGoal = s.currentGoal ∧
     (explorationStep pick now s).goalAttempts = s.goalAttempts ∧
     (explorationStep pick now s).unreachableGoals = s.unreachableGoals) ∨
    (∃ g, (explorationStep pick now s).currentGoal = some g ∧
      (explorationStep pick now s).goalAttempts = s.goalAttempts ∧
      (explorationStep pick now s).unreachableGoals = s.unreachableGoals ∧
      ∀ u ∈ s.unreachableGoals, hypotLt (g.x - u.x) (g.y - u.y) 2 = false) := by
  unfold explorationStep
  dsimp only
  repeat' split
  all_goals try exact Or.inl ⟨rfl, rfl, rfl⟩
  all_goals try exact Or.inl ⟨stopExploration_currentGoal now _,
    (stopExploration_spec now _).2.2.1, (stopExploration_spec now _).2.2.2.1⟩
  all_goals (
    rename_i heq
    obtain ⟨f, hf, hc⟩ := selectBestFrontier_mem _ _ _ _ _ _ _ _ _ heq
    obtain ⟨hgx, hgy, hbl, -⟩ := candidateGoal_filters _ _ _ _ _ _ _ _ hc
    refine Or.inr ⟨_, rfl, rfl, rfl, ?_⟩
    intro u hu
    rw [hgx, hgy]
    exact Bool.eq_false_iff.mpr (List.any_eq_false.mp hbl u hu))

/-- hypotLt only depends on the squares of its offsets. -/
theorem hypotLt_symm (dx dy c : ℚ) : hypotLt (-dx) (-dy) c = hypotLt dx dy c := by
  unfold hypotLt
  exact decide_eq_decide.mpr
    (by constructor <;> (rintro ⟨h0, h⟩; exact ⟨h0, by nlinarith⟩))

/-- The bookkeeping invariant only reads goalAttempts, unreachableGoals
and currentGoal. -/
theorem attemptsInv_congr {s t : EngineState}
    (ha : t.goalAttempts = s.goalAttempts)
    (hu : t.unreachableGoals = s.unreachableGoals)
    (hc : t.currentGoal = s.currentGoal)
    (h : attemptsInv s) : attemptsInv t := by
  obtain ⟨h1, h2, h3⟩ := h
  refine ⟨fun kv hkv => h1 kv (ha ▸ hkv), ?_, ?_⟩
  · intro g n hg hget
    exact h2 g n (hc ▸ hg) (ha ▸ hget)
  · intro kv hkv hsat
    obtain ⟨u, hu2, hk⟩ := h3 kv (ha ▸ hkv) hsat
    exact ⟨u, hu ▸ hu2, hk⟩

/-- A state that records a failed attempt and drops its current goal
satisfies the bookkeeping invariant again. -/
theorem attemptsInv_cleared {s t : EngineState}
    (ha : t.goalAttempts = (recordFailedAttempt s).goalAttempts)
    (hu : t.unreachableGoals = (recordFailedAttempt s).unreachableGoals)
    (hc : t.currentGoal = none)
    (h : attemptsInv s) : attemptsInv t := by
  obtain ⟨hb, hw⟩ := recordFailedAttempt_inv s h
  refine ⟨fun kv hkv => hb kv (ha ▸ hkv), ?_, ?_⟩
  · intro g n hg hget
    rw [hc] at hg
    exact Option.noConfusion hg
  · intro kv hkv hsat
    obtain ⟨u, hu2, hk⟩ := hw kv (ha ▸ hkv) hsat
    exact ⟨u, hu ▸ hu2, hk⟩

/-- The planning tick preserves the bookkeeping invariant: a freshly
selected goal passed the blacklist filter, so its counter cannot already
be saturated. -/
theorem attemptsInv_explorationStep (pick : EngineState → Goal → Goal → Bool)
    (now : ℕ) (s : EngineState) (h : attemptsInv s) :
    attemptsInv (explorationStep pick now s) := by
  rcases explorationStep_goalFacts pick now s with ⟨hc, ha, hu⟩ | ⟨g, hc, ha, hu, hfar⟩
  · exact attemptsInv_congr ha hu hc h
  · obtain ⟨h1, h2, h3⟩ := h
    refine ⟨fun kv hkv => h1 kv (ha ▸ hkv), ?_, ?_⟩
    · intro g2 n hg2 hget
      have hgg : g = g2 := by
        have := hc.symm.trans hg2
        injection this
      subst hgg
      rw [ha] at hget
      have hmem := alistGet_mem _ _ _ hget
      have hle : n ≤ maxAttempts := h1 _ hmem
      rcases lt_or_eq_of_le hle with hlt | heq5
      · exact hlt
      · exfalso
        obtain ⟨u, hu2, hk⟩ := h3 _ hmem heq5
        have hclose := goalKey_close u.x u.y g.x g.y hk
        have hsym : hypotLt (u.x - g.x) (u.y - g.y) 2 =
            hypotLt (g.x - u.x) (g.y - u.y) 2 := by
          rw [show u.x - g.x = -(g.x - u.x) from by ring,
            show u.y - g.y = -(g.y - u.y) from by ring, hypotLt_symm]
        rw [hsym, hfar u hu2] at hclose
        exact Bool.false_ne_true hclose
    · intro kv hkv hsat
      obtain ⟨u, hu2, hk⟩ := h3 kv (ha ▸ hkv) hsat
      exact ⟨u, hu ▸ hu2, hk⟩

/-- Every engine event preserves the bookkeeping invariant. -/
theorem attemptsInv_step (pick : EngineState → Goal → Goal → Bool)
    (s : EngineState) (e : Event) (h : attemptsInv s) :
    attemptsInv (step pick s e) := by
  cases e with
  | cloud now pc =>
    show attemptsInv (onPointCloudReceived pick now pc s)
    unfold onPointCloudReceived
    rcases hcp : s.currentPos with _ | cpos
    · exact h
    dsimp only
    split
    · exact h
    obtain ⟨-, -, -, -, -, m6, -, m8, m9, -, -, -⟩ := cloudMapStage_spec now pc cpos s
    have h1 : attemptsInv (cloudMapStage now pc cpos s) := attemptsInv_congr m8 m9 m6 h
    have h2 : attemptsInv (cloudTimeoutStage now (cloudMapStage now pc cpos s)) := by
      rcases cloudTimeoutStage_cases now (cloudMapStage now pc cpos s) with hcase | hcase
      · rw [hcase]
        exact h1
      · rw [hcase]
        exact attemptsInv_cleared rfl rfl rfl h1
    unfold cloudPlanStage
    split
    · split
      · exact attemptsInv_congr rfl rfl rfl
          (attemptsInv_explorationStep pick now _ h2)
      · exact h2
    · exact h2
  | odom now p =>
    show attemptsInv (odomCore now p (odomReturnCheck p s))
    obtain ⟨-, -, rg, -, -, rga, rug, -, -, -, -, -⟩ := odomReturnCheck_frame p s
    have ht : attemptsInv (odomReturnCheck p s) := attemptsInv_congr rga rug rg h
    cases hw : (odomReturnCheck p s).isWaitingForArrival
    · rw [odomCore_eq_of_notWaiting now p _ hw]
      exact attemptsInv_congr rfl rfl rfl ht
    · rcases hg : (odomReturnCheck p s).currentGoal with _ | g
      · rw [odomCore_eq_of_noGoal now p _ hg]
        exact attemptsInv_congr rfl rfl rfl ht
      · cases hsc : stuckCheck now p (odomReturnCheck p s)
        · cases harr : hypotLt (p.x - g.x) (p.y - g.y) 0.3
          · obtain ⟨-, ha, hu, -, hcg, -, -⟩ :=
              odomCore_spec_noArrival now p _ g hw hg hsc harr
            exact attemptsInv_congr ha hu (hcg.trans rfl) ht
          · obtain ⟨-, ha, hu, -, hcg, -, -⟩ :=
              odomCore_spec_arrival now p _ g hw hg hsc harr
            obtain ⟨t1, t2, t3⟩ := ht
            refine ⟨?_, ?_, ?_⟩
            · intro kv hkv
              rw [ha] at hkv
              exact t1 kv (alistErase_mem _ _ _ hkv)
            · intro g2 n hg2 hget
              rw [hcg] at hg2
              exact Option.noConfusion hg2
            · intro kv hkv hsat
              rw [ha] at hkv
              obtain ⟨u, hu2, hk⟩ := t3 kv (alistErase_mem _ _ _ hkv) hsat
              exact ⟨u, hu ▸ hu2, hk⟩
        · rw [odomCore_eq_of_stuck now p _ g hw hg hsc]
          exact attemptsInv_cleared rfl rfl rfl ht
  | start now opts =>
    exact attemptsInv_congr (startExploration_spec now opts s).2.1
      (startExploration_spec now opts s).2.2.1 (startExploration_currentGoal now opts s) h
  | stop now =>
    exact attemptsInv_congr (stopExploration_spec now s).2.2.1
      (stopExploration_spec now s).2.2.2.1 (stopExploration_currentGoal now s) h
  | goHome now =>
    exact attemptsInv_congr (returnToHome_spec now s).2.2.1
      (returnToHome_spec now s).2.2.2.1 (returnToHome_spec now s).2.2.2.2.2.2.1 h
  | pauseEv =>
    exact attemptsInv_congr (pauseExploration_spec s).2.2.2.1
      (pauseExploration_spec s).2.2.2.2 (pauseExploration_currentGoal s) h
  | resumeEv now =>
    show attemptsInv (resumeExploration pick now s)
    unfold resumeExploration
    split
    · exact h
    · exact attemptsInv_explorationStep pick now _ (attemptsInv_congr rfl rfl rfl h)
  | tick now => exact attemptsInv_explorationStep pick now s h
  | resetEv now =>
    exact attemptsInv_congr (engineReset_spec now s).2.2.2.2.1
      (engineReset_spec now s).2.2.2.2.2 (stopExploration_currentGoal now s) h

/-- The bookkeeping invariant holds in every reachable state. -/
theorem attemptsInv_reachable (pick : EngineState → Goal → Goal → Bool)
    (s : EngineState) (h : Reachable pick s) : attemptsInv s := by
  obtain ⟨evs, rfl⟩ := h
  induction evs using List.reverseRecOn with
  | nil =>
    exact ⟨fun kv hkv => absurd hkv (List.not_mem_nil kv),
      fun g n hg _ => Option.noConfusion hg,
      fun kv hkv _ => absurd hkv (List.not_mem_nil kv)⟩
  | append_singleton l e ih =>
    rw [List.foldl_append, List.foldl_cons, List.foldl_nil]
    exact attemptsInv_step pick _ e ih

/-- C2 (amended): the failed-attempt bookkeeping.  (1) In every reachable
state every attempt counter is at most maxAttempts = 5.  (2) Recording a
failure on the current goal bumps its counter by exactly one and appends
the goal to unreachableGoals exactly when the new counter reaches
maxAttempts.  (3) A point-cloud event past the 8000 ms arrival timeout
records the failure and clears isWaitingForArrival, currentGoal and
missionStartTime within the timeout block (the same event may replan
immediately afterwards).  (4) A firing stuck check records the failure and
clears the waiting and stuck state. -/
theorem C2_failed_attempt_bookkeeping (pick : EngineState → Goal → Goal → Bool) :
    (∀ s, Reachable pick s → ∀ kv ∈ s.goalAttempts, kv.2 ≤ maxAttempts) ∧
    (∀ s g, s.currentGoal = some g →
      (recordFailedAttempt s).goalAttempts =
        alistSet (goalKey g.x g.y)
          ((alistGet (goalKey g.x g.y) s.goalAttempts).getD 0 + 1) s.goalAttempts ∧
      (recordFailedAttempt s).unreachableGoals =
        (if maxAttempts ≤ (alistGet (goalKey g.x g.y) s.goalAttempts).getD 0 + 1
         then s.unreachableGoals ++ [⟨g.x, g.y⟩] else s.unreachableGoals)) ∧
    (∀ (now : ℕ) s (t0 : ℕ), s.isWaitingForArrival = true → s.missionStartTime = some t0 →
      ((now : ℤ) - (t0 : ℤ) > 8000) →
      cloudTimeoutStage now s =
        { recordFailedAttempt s with
          isWaitingForArrival := false
          currentGoal := none
          missionStartTime := none }) ∧
    (∀ (now : ℕ) p s g, s.isWaitingForArrival = true → s.currentGoal = some g →
      stuckCheck now p s = true →
      odomCore now p s =
        { recordFailedAttempt s with
          isWaitingForArrival := false
          currentGoal := none
          missionStartTime := none
          stuckStartTime := none
          lastVelocityCheck := none }) :=
  ⟨fun s hr => (attemptsInv_reachable pick s hr).1,
   fun s g hg => recordFailedAttempt_spec s g hg,
   fun now s t0 hw hm ht => cloudTimeoutStage_fires now s t0 hw hm ht,
   fun now p s g hw hg hsc => odomCore_eq_of_stuck now p s g hw hg hsc⟩

/-- Witness for the amended C2 theorem: the bound at the initial state and
the timeout transition on a concrete waiting state. -/
theorem C2_failed_attempt_bookkeeping_witness :
    (∀ kv ∈ initState.goalAttempts, kv.2 ≤ maxAttempts) ∧
    cloudTimeoutStage 9000 sW2 =
      { recordFailedAttempt sW2 with
        isWaitingForArrival := false
        currentGoal := none
        missionStartTime := none } :=
  ⟨(C2_failed_attempt_bookkeeping (fun _ _ _ => false)).1 initState ⟨[], rfl⟩,
   (C2_failed_attempt_bookkeeping (fun _ _ _ => false)).2.2.1 9000 sW2 0 rfl rfl
     (by decide)⟩

set_option maxRecDepth 100000 in
/-- C2 counterexample: the waiting state is not left cleared by the
handler.  On a point-cloud event past the timeout the failure is recorded
(the timed-out goal's counter becomes 1), but the same event then replans:
at handler exit isWaitingForArrival is true again, a new currentGoal is
set and missionStartTime holds the event's own time. -/
theorem C2_counterexample :
    (sC2.isWaitingForArrival = true ∧ sC2.missionStartTime = some 0 ∧
      sC2.goalAttempts = [] ∧ ((9000 : ℤ) - 0 > 8000)) ∧
    (onPointCloudReceived (fun _ _ _ => false) 9000 pcC2 sC2).goalAttempts =
      [(goalKey 2 2, 1)] ∧
    (onPointCloudReceived (fun _ _ _ => false) 9000 pcC2 sC2).isWaitingForArrival
      = true ∧
    (onPointCloudReceived (fun _ _ _ => false) 9000 pcC2 sC2).missionStartTime
      = some 9000 ∧
    ((onPointCloudReceived (fun _ _ _ => false) 9000 pcC2 sC2).currentGoal).isSome
      = true := by
  refine ⟨⟨rfl, rfl, rfl, by decide⟩, ?_, ?_, ?_, ?_⟩ <;> with_unfolding_all rfl

end DroneGS
